import Mathlib

/-!
# go_torrent: metainfo parsing and tracker announce

A shallow embedding of package `peers` (`pkg/peers.go`, `pkg/udp_tracker.go`):
`ParseTorrentFile`, `EncodeRawInfo`, `ComputeInfoHash`, `urlEncodeInfoHash`,
`RequestPeers` and `requestPeersUDP`.

Go strings and byte slices are byte sequences (`Bytes`).  Go's `int` is an
`Int`; a conversion to a fixed-width unsigned type reduces modulo `2^w`.  A
call that leaves the process (file system, bencode decoding, SHA-1, URL
parsing, resolver, socket, HTTP client, random source) is a field of the
record `World`, so every function below is a pure function of the world it
runs in.  A run of a transport returns, next to its result, the trace of the
datagrams it wrote and the URLs it requested.  A slice expression whose
bounds are out of range ends the run with `Outcome.panic`.

The library functions the program calls are written out after their Go
sources: `fmt.Sprintf` with `%02X`, `strconv.Itoa`, `encoding/binary`
(big-endian), `copy`, `url.QueryEscape`, `url.Values.Set` and `Encode`.
-/

namespace GoTorrent

/-! ## Bytes and strings -/

abbrev Byte := Fin 256
abbrev Bytes := List Byte

/-- The bytes of an ASCII string literal. -/
def str (s : String) : Bytes := s.toList.map (fun c => Fin.ofNat c.toNat)

/-- A Go array `[20]byte`. -/
abbrev Hash := { l : Bytes // l.length = 20 }

/-- The zero value of `[20]byte`. -/
def Hash.zero : Hash := ⟨List.replicate 20 0, by decide⟩

/-! ## fmt.Sprintf("%%%02X", b) -/

/-- The digit table `udigits` of package fmt, "0123456789ABCDEFX". -/
def udigits : Bytes := str "0123456789ABCDEFX"

/-- The digit loop of fmt's `fmtInteger` for base 16 with upper-case digits:
digits are produced from the least significant one, `u >>= 4` while `u >= 16`. -/
def fmtHexLoop : Nat → Nat → Bytes → Bytes
  | 0, u, acc => udigits.getD (u % 16) 0 :: acc
  | fuel + 1, u, acc =>
    if 16 ≤ u then fmtHexLoop fuel (u / 16) (udigits.getD (u % 16) 0 :: acc)
    else udigits.getD u 0 :: acc

/-- Verb `%0wX` on an unsigned value: the hexadecimal digits, padded on the
left with `'0'` up to width `w`. -/
def fmtUpperHex (w : Nat) (u : Nat) : Bytes :=
  let ds := fmtHexLoop u u []
  List.replicate (w - ds.length) 48 ++ ds

/-- The result of `fmt.Sprintf("%%%02X", b)`: a literal `%`, then `b` under `%02X`. -/
def sprintfPct02X (b : Byte) : Bytes := 37 :: fmtUpperHex 2 b.val

/-- Source `urlEncodeInfoHash` (peers.go):
```go
for _, b := range hash { buf.WriteString(fmt.Sprintf("%%%02X", b)) }
return buf.String()
``` -/
def urlEncodeInfoHash (hash : Hash) : Bytes :=
  hash.val.foldl (fun buf b => buf ++ sprintfPct02X b) []

/-- Value of an upper-case hexadecimal digit character, `none` for any other byte. -/
def upperHexVal (c : Byte) : Option Nat :=
  if 48 ≤ c.val ∧ c.val ≤ 57 then some (c.val - 48)
  else if 65 ≤ c.val ∧ c.val ≤ 70 then some (c.val - 55)
  else none

/-! ## Data model (peers.go) -/

/-- Source `Info`: the typed fields of the info dictionary. -/
structure Info where
  Name : Bytes
  PieceLength : Int
  Pieces : Bytes
  Length : Int
deriving DecidableEq

/-- Source `TorrentFile`. -/
structure TorrentFile where
  Announce : Bytes
  Info : GoTorrent.Info
  InfoRaw : Bytes
  InfoHash : Hash
deriving DecidableEq

/-- The zero value `TorrentFile{}`. -/
def TorrentFile.zero : TorrentFile :=
  { Announce := [], Info := { Name := [], PieceLength := 0, Pieces := [], Length := 0 },
    InfoRaw := [], InfoHash := Hash.zero }

/-- Source `Client`. -/
structure Client where
  PeerID : Bytes
  Port : Int
deriving DecidableEq

/-! ## The world outside the process -/

/-- The fields of a parsed `*url.URL` that the program reads. -/
structure URL where
  Scheme : Bytes
  Host : Bytes
deriving DecidableEq

/-- A value decoded by `bencode.Decode`: `string`, `int64`, `[]any` or
`map[string]any`.  A map is listed in the order in which one iteration over
it presents its entries. -/
inductive BVal where
  | str (s : Bytes)
  | int (n : Int)
  | list (xs : List BVal)
  | dict (kvs : List (Bytes × BVal))

/-- Everything the program obtains from outside.  An error is the message of
the Go `error` value. -/
structure World where
  /-- Result of `os.Open(path)` followed by reading the file. -/
  openFile : Bytes → Except Bytes Bytes
  /-- Result of `bencode.Decode` on a file's content. -/
  bencodeDecode : Bytes → Except Bytes BVal
  /-- Result of `bencode.Unmarshal(rawInfo, &parsed)`. -/
  bencodeUnmarshal : Bytes → Except Bytes Info
  /-- Digest `sha1.Sum`. -/
  sha1Sum : Bytes → Hash
  /-- Result of `url.Parse`. -/
  urlParse : Bytes → Except Bytes URL
  /-- Result of `http.Get(url)`: the transport error, or the outcome of
  `io.ReadAll(resp.Body)`. -/
  httpGet : Bytes → Except Bytes (Except Bytes Bytes)
  /-- Error of `net.ResolveUDPAddr("udp", host)`, if any. -/
  resolveUDPAddr : Bytes → Option Bytes
  /-- Error of `net.ListenPacket("udp", ":0")`, if any. -/
  listenPacket : Option Bytes
  /-- First value drawn from `random.Uint32()`. -/
  rand1 : Fin 4294967296
  /-- Second value drawn from `random.Uint32()`. -/
  rand2 : Fin 4294967296
  /-- Error of the `i`-th `conn.WriteTo`, if any. -/
  writeTo : Nat → Option Bytes
  /-- Outcome of the `i`-th `conn.ReadFrom`: the datagram that arrives before
  the deadline, or the error. -/
  readFrom : Nat → Except Bytes Bytes

/-- What a call does to the outside, in order. -/
inductive Event where
  | writeTo (payload : Bytes)
  | httpGet (url : Bytes)
deriving DecidableEq

/-- How a call returning `([]byte, error)` ends. -/
inductive Outcome where
  /-- Returns `(body, nil)`. -/
  | ok (body : Bytes)
  /-- Returns `(nil, err)`, `msg` being `err.Error()`. -/
  | error (msg : Bytes)
  /-- A run-time panic (slice bounds out of range). -/
  | panic
deriving DecidableEq

/-- A finished call: its effects and how it ended. -/
structure Run where
  trace : List Event
  outcome : Outcome
deriving DecidableEq

/-! ## encoding/binary, big-endian -/

/-- `byte(v >> k)` for an unsigned `v`. -/
def byteAt (v : Nat) (k : Nat) : Byte := ⟨v / 2 ^ k % 256, Nat.mod_lt _ (by decide)⟩

/-- `binary.BigEndian.PutUint16`. -/
def putUint16 (v : Nat) : Bytes := [byteAt v 8, byteAt v 0]

/-- `binary.BigEndian.PutUint32`. -/
def putUint32 (v : Nat) : Bytes := [byteAt v 24, byteAt v 16, byteAt v 8, byteAt v 0]

/-- `binary.BigEndian.PutUint64`. -/
def putUint64 (v : Nat) : Bytes :=
  [byteAt v 56, byteAt v 48, byteAt v 40, byteAt v 32,
   byteAt v 24, byteAt v 16, byteAt v 8, byteAt v 0]

/-- Conversion `uint16(x)` of a Go `int`. -/
def toUint16 (x : Int) : Nat := (x % 65536).toNat

/-- Conversion `uint32(x)` of a signed integer. -/
def toUint32 (x : Int) : Nat := (x % 4294967296).toNat

/-- Conversion `uint64(x)` of a Go `int`. -/
def toUint64 (x : Int) : Nat := (x % 18446744073709551616).toNat

/-- `binary.BigEndian.Uint16(b)`, for `len(b) >= 2`. -/
def beUint16 (b : Bytes) : Nat := (b.getD 1 0).val + (b.getD 0 0).val * 2 ^ 8

/-- `binary.BigEndian.Uint32(b)`, for `len(b) >= 4`:
`uint32(b[3]) | uint32(b[2])<<8 | uint32(b[1])<<16 | uint32(b[0])<<24`. -/
def beUint32 (b : Bytes) : Nat :=
  (b.getD 3 0).val + (b.getD 2 0).val * 2 ^ 8 + (b.getD 1 0).val * 2 ^ 16
    + (b.getD 0 0).val * 2 ^ 24

/-- `binary.BigEndian.Uint64(b)`, for `len(b) >= 8`. -/
def beUint64 (b : Bytes) : Nat :=
  (b.getD 7 0).val + (b.getD 6 0).val * 2 ^ 8 + (b.getD 5 0).val * 2 ^ 16
    + (b.getD 4 0).val * 2 ^ 24 + (b.getD 3 0).val * 2 ^ 32 + (b.getD 2 0).val * 2 ^ 40
    + (b.getD 1 0).val * 2 ^ 48 + (b.getD 0 0).val * 2 ^ 56

/-- A slice expression `b[lo:hi]` on a slice whose capacity is its length;
`none` is the run-time panic. -/
def slice (b : Bytes) (lo hi : Nat) : Option Bytes :=
  if lo ≤ hi ∧ hi ≤ b.length then some ((b.take hi).drop lo) else none

/-- `io.ReadFull` of `size` bytes from `bytes.NewReader(r)`, as `binary.Read`
does it: `EOF` on an empty reader, `unexpected EOF` on a short one. -/
def readFull (r : Bytes) (size : Nat) : Except Bytes Bytes :=
  if size ≤ r.length then .ok (r.take size)
  else if r.length = 0 then .error (str "EOF")
  else .error (str "unexpected EOF")

/-- The builtin `copy(dst, src)`: the first `min(len(dst), len(src))` bytes of
`dst` are replaced by those of `src`. -/
def copy (dst src : Bytes) : Bytes :=
  src.take (min dst.length src.length) ++ dst.drop (min dst.length src.length)

/-- `conn.ReadFrom(p)` when datagram `d` arrives: the payload is copied into
`p`, what does not fit is discarded; returns the new content of `p` and the
number of bytes copied. -/
def readInto (p d : Bytes) : Bytes × Nat :=
  (copy p d, min p.length d.length)

/-! ## UDP tracker protocol (udp_tracker.go) -/

def connectAction : Nat := 0
def announceAction : Nat := 1
def errorAction : Nat := 3

def magicConnectionID : Nat := 0x41727101980

/-- Source `udpConnectionReq`. -/
structure udpConnectionReq where
  ConnectionID : Nat
  Action : Nat
  TransactionID : Nat

/-- Source `udpConnectionResp`. -/
structure udpConnectionResp where
  Action : Nat
  TransactionID : Nat
  ConnectionID : Nat

/-- Source `udpAnnounceReq`. -/
structure udpAnnounceReq where
  ConnectionID : Nat
  Action : Nat
  TransactionID : Nat
  InfoHash : Hash
  PeerID : Hash
  Downloaded : Nat
  Left : Nat
  Uploaded : Nat
  Event : Nat
  IPAddress : Nat
  Key : Nat
  NumWant : Int
  Port : Nat

/-- `binary.Write(&buf, binary.BigEndian, connReq)`: the fields in declaration
order, `uint64, uint32, uint32`. -/
def udpConnectionReq.write (r : udpConnectionReq) : Bytes :=
  putUint64 r.ConnectionID ++ putUint32 r.Action ++ putUint32 r.TransactionID

/-- `binary.Write(&buf, binary.BigEndian, announceReq)`: the fields in
declaration order; an `int32` is written as its `uint32` conversion. -/
def udpAnnounceReq.write (r : udpAnnounceReq) : Bytes :=
  putUint64 r.ConnectionID ++ putUint32 r.Action ++ putUint32 r.TransactionID
    ++ r.InfoHash.val ++ r.PeerID.val
    ++ putUint64 r.Downloaded ++ putUint64 r.Left ++ putUint64 r.Uploaded
    ++ putUint32 r.Event ++ putUint32 r.IPAddress ++ putUint32 r.Key
    ++ putUint32 (toUint32 r.NumWant) ++ putUint16 r.Port

/-- `binary.Read(bytes.NewReader(buf), binary.BigEndian, &connResp)`: 16 bytes
are read in full, then decoded field by field. -/
def udpConnectionResp.read (buf : Bytes) : Except Bytes udpConnectionResp :=
  match readFull buf 16 with
  | .error e => .error e
  | .ok b =>
    .ok { Action := beUint32 (b.take 4),
          TransactionID := beUint32 ((b.drop 4).take 4),
          ConnectionID := beUint64 ((b.drop 8).take 8) }

/-- `binary.Read(bytes.NewReader(buf), binary.BigEndian, &action)` for a `uint32`. -/
def readUint32 (buf : Bytes) : Except Bytes Nat :=
  match readFull buf 4 with
  | .error e => .error e
  | .ok b => .ok (beUint32 b)

/-- The `[20]byte` filled by `copy(peerID[:], []byte(client.PeerID))`. -/
def peerIDArray (client : Client) : Hash :=
  ⟨copy Hash.zero.val client.PeerID, by simp [copy, Hash.zero]⟩

/-- The announce request built in step 2 of `requestPeersUDP`. -/
def announceRequest (torrent : TorrentFile) (client : Client)
    (connResp : udpConnectionResp) (announceTransactionID : Nat) : udpAnnounceReq :=
  { ConnectionID := connResp.ConnectionID
    Action := announceAction
    TransactionID := announceTransactionID
    InfoHash := torrent.InfoHash
    PeerID := peerIDArray client
    Downloaded := 0
    Left := toUint64 torrent.Info.Length
    Uploaded := 0
    Event := 2
    IPAddress := 0
    Key := 0
    NumWant := -1
    Port := toUint16 client.Port }

/-- Step 2 of `requestPeersUDP`, from the announce request on. -/
def announceRound (w : World) (torrent : TorrentFile) (client : Client)
    (connResp : udpConnectionResp) (sent : List Event) : Run :=
  let announceTransactionID := w.rand2.val
  let announceReqBuf := (announceRequest torrent client connResp announceTransactionID).write
  let sent := sent ++ [Event.writeTo announceReqBuf]
  match w.writeTo 1 with
  | some e => ⟨sent, .error e⟩
  | none =>
  match w.readFrom 1 with
  | .error e => ⟨sent, .error e⟩
  | .ok d =>
  let (announceRespBuf, n) := readInto (List.replicate 2048 0) d
  if n < 8 then ⟨sent, .error (str "udp tracker: announce response too short")⟩
  else
  match slice announceRespBuf 0 4 with
  | none => ⟨sent, .panic⟩
  | some head =>
  match readUint32 head with
  | .error e => ⟨sent, .error e⟩
  | .ok action =>
  if action = errorAction then
    match slice announceRespBuf 8 n with
    | none => ⟨sent, .panic⟩
    | some text => ⟨sent, .error (str "udp tracker error: " ++ text)⟩
  else
    match slice announceRespBuf 0 n with
    | none => ⟨sent, .panic⟩
    | some body => ⟨sent, .ok body⟩

/-- Source `requestPeersUDP` (udp_tracker.go). -/
def requestPeersUDP (w : World) (torrent : TorrentFile) (client : Client) : Run :=
  match w.urlParse torrent.Announce with
  | .error e => ⟨[], .error e⟩
  | .ok parsedURL =>
  match w.resolveUDPAddr parsedURL.Host with
  | some e => ⟨[], .error e⟩
  | none =>
  match w.listenPacket with
  | some e => ⟨[], .error e⟩
  | none =>
  let transactionID := w.rand1.val
  let connReq : udpConnectionReq :=
    { ConnectionID := magicConnectionID, Action := connectAction, TransactionID := transactionID }
  let sent := [Event.writeTo connReq.write]
  match w.writeTo 0 with
  | some e => ⟨sent, .error e⟩
  | none =>
  match w.readFrom 0 with
  | .error e => ⟨sent, .error e⟩
  | .ok d =>
  let (connRespBuf, n) := readInto (List.replicate 16 0) d
  if n < 16 then ⟨sent, .error (str "udp tracker: connection response too short")⟩
  else
  match udpConnectionResp.read connRespBuf with
  | .error e => ⟨sent, .error e⟩
  | .ok connResp =>
  if connResp.Action ≠ connectAction ∨ connResp.TransactionID ≠ transactionID then
    ⟨sent, .error (str "udp tracker: invalid connection response")⟩
  else
    announceRound w torrent client connResp sent

/-! ## strconv and net/url -/

/-- The digit loop of `strconv.FormatInt` in base 10: digits are produced from
the least significant one while `u >= 10`. -/
def formatDecimalLoop : Nat → Nat → Bytes → Bytes
  | 0, u, acc => ⟨48 + u % 10, by omega⟩ :: acc
  | fuel + 1, u, acc =>
    if 10 ≤ u then formatDecimalLoop fuel (u / 10) (⟨48 + u % 10, by omega⟩ :: acc)
    else ⟨48 + u % 10, by omega⟩ :: acc

/-- `strconv.Itoa(i)`, also verb `%d`: the decimal digits, after a `-` when
`i` is negative. -/
def itoa (i : Int) : Bytes :=
  if i < 0 then 45 :: formatDecimalLoop (-i).toNat (-i).toNat []
  else formatDecimalLoop i.toNat i.toNat []

/-- Function `shouldEscape(c, encodeQueryComponent)` of net/url: only letters,
digits and the marks `-`, `_`, `.`, `~` are left alone. -/
def shouldEscape (c : Byte) : Bool :=
  if (97 ≤ c.val ∧ c.val ≤ 122) ∨ (65 ≤ c.val ∧ c.val ≤ 90) ∨ (48 ≤ c.val ∧ c.val ≤ 57) then false
  else if c.val = 45 ∨ c.val = 95 ∨ c.val = 46 ∨ c.val = 126 then false
  else true

/-- The table `upperhex` of net/url. -/
def upperhex : Bytes := str "0123456789ABCDEF"

/-- `url.QueryEscape(s)`: a space becomes `+`, a byte that must be escaped
becomes `%` and `upperhex[c>>4]`, `upperhex[c&15]`, any other byte is kept. -/
def QueryEscape (s : Bytes) : Bytes :=
  s.flatMap (fun c =>
    if c.val = 32 then [43]
    else if shouldEscape c then [37, upperhex.getD (c.val / 16) 0, upperhex.getD (c.val % 16) 0]
    else [c])

/-- A `url.Values`, that is a `map[string][]string`. -/
abbrev Values := List (Bytes × List Bytes)

/-- `v.Set(key, value)`: `v[key] = []string{value}`. -/
def Values.set (v : Values) (key value : Bytes) : Values :=
  if v.any (fun e => e.1 = key) then v.map (fun e => if e.1 = key then (key, [value]) else e)
  else v ++ [(key, [value])]

/-- The body of the loop over the sorted keys in `v.Encode()`: every value of
key `k` is written as `QueryEscape(k) + "=" + QueryEscape(v)`, with `&` before
it when the buffer is not empty. -/
def Values.encodeKey (v : Values) (buf k : Bytes) : Bytes :=
  let vs := (v.lookup k).getD []
  let keyEscaped := QueryEscape k
  vs.foldl (fun buf x =>
    (if 0 < buf.length then buf ++ [38] else buf) ++ keyEscaped ++ [61] ++ QueryEscape x) buf

/-- `v.Encode()` of net/url: the keys are sorted, then the pairs of each key
are written in that order. -/
def Values.encode (v : Values) : Bytes :=
  let keys := (v.map Prod.fst).insertionSort (fun a b => a ≤ b)
  keys.foldl v.encodeKey []

/-! ## HTTP announce (peers.go) -/

/-- The string `trackerURL` built by `RequestPeers`:
`torrent.Announce + "?" + params.Encode()`. -/
def trackerURL (torrent : TorrentFile) (client : Client) : Bytes :=
  let params : Values := []
  let params := params.set (str "info_hash") (urlEncodeInfoHash torrent.InfoHash)
  let params := params.set (str "peer_id") client.PeerID
  let params := params.set (str "port") (itoa client.Port)
  let params := params.set (str "uploaded") (str "0")
  let params := params.set (str "downloaded") (str "0")
  let params := params.set (str "left") (itoa torrent.Info.Length)
  let params := params.set (str "compact") (str "1")
  let params := params.set (str "event") (str "started")
  torrent.Announce ++ str "?" ++ params.encode

/-- Source `RequestPeers` (peers.go). -/
def RequestPeers (w : World) (torrent : TorrentFile) (client : Client) : Run :=
  match w.urlParse torrent.Announce with
  | .error e => ⟨[], .error e⟩
  | .ok parsedURL =>
  if parsedURL.Scheme = str "udp" then requestPeersUDP w torrent client
  else
  let url := trackerURL torrent client
  match w.httpGet url with
  | .error e => ⟨[Event.httpGet url], .error (str "HTTP request to tracker failed: " ++ e)⟩
  | .ok (.error e) => ⟨[Event.httpGet url], .error (str "failed to read tracker response: " ++ e)⟩
  | .ok (.ok body) => ⟨[Event.httpGet url], .ok body⟩

/-! ## Metainfo parsing (peers.go) -/

/-- Modelled from the spec: the part of the external bencode codec
(github.com/jackpal/bencode-go, not in the repository) that writes the
entries of a dictionary, already encoded: the entries are sorted by key in
lexicographic order and each is written as `<len>:<key>` then its value. -/
def writeSVList (svList : List (Bytes × Bytes)) : Bytes :=
  (svList.insertionSort (fun a b => a.1 ≤ b.1)).flatMap
    (fun e => itoa e.1.length ++ [58] ++ e.1 ++ e.2)

mutual
/-- Modelled from the spec: `bencode.Marshal` of the external bencode codec
(github.com/jackpal/bencode-go, not in the repository) on a decoded value, the
canonical byte representation: a string is `<len>:<bytes>`, an integer
`i<decimal>e`, a list `l...e`, a dictionary `d...e` with its keys in
lexicographic order. -/
def marshal : BVal → Bytes
  | .str s => itoa s.length ++ [58] ++ s
  | .int n => [105] ++ itoa n ++ [101]
  | .list xs => [108] ++ marshalList xs ++ [101]
  | .dict kvs => [100] ++ writeSVList (marshalEntries kvs) ++ [101]
/-- The items of a list, one after the other. -/
def marshalList : List BVal → Bytes
  | [] => []
  | x :: xs => marshal x ++ marshalList xs
/-- The entries of a dictionary, each value encoded. -/
def marshalEntries : List (Bytes × BVal) → List (Bytes × Bytes)
  | [] => []
  | (k, v) :: rest => (k, marshal v) :: marshalEntries rest
end

/-- Source `EncodeRawInfo` (peers.go): `bencode.Marshal(&buf, info)`; the
error is `nil` on every decoded value. -/
def EncodeRawInfo (info : List (Bytes × BVal)) : Bytes × Option Bytes :=
  (marshal (.dict info), none)

/-- Source `ComputeInfoHash` (peers.go): `sha1.Sum(data)`. -/
def ComputeInfoHash (w : World) (data : Bytes) : Hash := w.sha1Sum data

/-- Source `ParseTorrentFile` (peers.go): the returned pair `(TorrentFile, error)`. -/
def ParseTorrentFile (w : World) (path : Bytes) : TorrentFile × Option Bytes :=
  match w.openFile path with
  | .error e => (TorrentFile.zero, some e)
  | .ok file =>
  match w.bencodeDecode file with
  | .error e => (TorrentFile.zero, some e)
  | .ok (.dict result) =>
    let torrent := TorrentFile.zero
    let torrent :=
      match result.lookup (str "announce") with
      | some (.str announce) => { torrent with Announce := announce }
      | _ => torrent
    match result.lookup (str "info") with
    | some (.dict info) =>
      match EncodeRawInfo info with
      | (_, some e) => (TorrentFile.zero, some e)
      | (rawInfo, none) =>
        let torrent := { torrent with InfoRaw := rawInfo }
        let torrent := { torrent with InfoHash := ComputeInfoHash w rawInfo }
        match w.bencodeUnmarshal rawInfo with
        | .error e => (TorrentFile.zero, some e)
        | .ok parsed => ({ torrent with Info := parsed }, none)
    | _ => (TorrentFile.zero, some (str "missing or invalid 'info' section"))
  | .ok _ => (TorrentFile.zero, some (str "invalid torrent format"))

/-! ## A concrete world -/

/-- A client identity as `main` builds it: `-GC0001-` and twelve characters. -/
def sampleClient : Client := { PeerID := str "-GC0001-abcdefghijkl", Port := 6881 }

/-- A parsed torrent announcing to a UDP tracker. -/
def sampleTorrent : TorrentFile :=
  { Announce := str "udp://tracker.example:6969"
    Info := { Name := str "a.bin", PieceLength := 16384, Pieces := [], Length := 12345 }
    InfoRaw := []
    InfoHash := ⟨[0, 1, 2, 3, 4, 5, 6, 7, 8, 9, 10, 11, 12, 13, 14, 15, 16, 17, 18, 19], rfl⟩ }

/-- A connect reply: action 0, transaction 7, connection id `0x1122334455667788`. -/
def sampleConnectReply : Bytes :=
  [0, 0, 0, 0, 0, 0, 0, 7, 0x11, 0x22, 0x33, 0x44, 0x55, 0x66, 0x77, 0x88]

/-- A world whose tracker answers the connect request of transaction 7 with
`sampleConnectReply` and the announce request with `announceReply`. -/
def sampleWorld (announceReply : Bytes) : World where
  openFile := fun _ => .error (str "no such file")
  bencodeDecode := fun _ => .error (str "EOF")
  bencodeUnmarshal := fun _ => .error (str "EOF")
  sha1Sum := fun _ => Hash.zero
  urlParse := fun _ => .ok { Scheme := str "udp", Host := str "tracker.example:6969" }
  httpGet := fun _ => .error (str "unsupported protocol scheme")
  resolveUDPAddr := fun _ => none
  listenPacket := none
  rand1 := 7
  rand2 := 9
  writeTo := fun _ => none
  readFrom := fun i => if i = 0 then .ok sampleConnectReply else .ok announceReply

/-- The connect round of `requestPeersUDP w torrent _` succeeds on the reply
`d₀`: the URL parses, the host resolves, the socket opens, the connect request
is written, and `d₀` arrives with at least 16 bytes, action 0 and the
transaction ID just sent. -/
def ConnectAccepted (w : World) (torrent : TorrentFile) (d₀ : Bytes) : Prop :=
  ∃ u, w.urlParse torrent.Announce = .ok u ∧ w.resolveUDPAddr u.Host = none ∧
    w.listenPacket = none ∧ w.writeTo 0 = none ∧ w.readFrom 0 = .ok d₀ ∧
    16 ≤ d₀.length ∧ beUint32 ((d₀.take 16).take 4) = connectAction ∧
    beUint32 (((d₀.take 16).drop 4).take 4) = w.rand1.val

/-- The call `requestPeersUDP w torrent _` gets as far as reading the announce
reply, and that reply is the datagram `d`: the connect round succeeds and the
announce request is written. -/
def ReadsAnnounceReply (w : World) (torrent : TorrentFile) (d : Bytes) : Prop :=
  (∃ d₀, ConnectAccepted w torrent d₀) ∧ w.writeTo 1 = none ∧ w.readFrom 1 = .ok d

/-- An announce reply of 2049 bytes: action 1, transaction 9, then 2041 bytes `a`. -/
def longReply : Bytes := [0, 0, 0, 1, 0, 0, 0, 9] ++ List.replicate 2041 97

/-- An error reply of 2049 bytes: action 3, transaction 9, then 2041 bytes `a`. -/
def longErrorReply : Bytes := [0, 0, 0, 3, 0, 0, 0, 9] ++ List.replicate 2041 97

/-- The error reply of the tracker for an unknown torrent. -/
def notRegisteredReply : Bytes := [0, 0, 0, 3, 0, 0, 0, 9] ++ str "torrent not registered"

/-- A world in which every file decodes to the value `v`, the typed decoding
of the info dictionary yields `parsed`, and the digest of a byte string is
its first 20 bytes (padded with zeros). -/
def sampleFileWorld (v : BVal) (parsed : Info) : World :=
  { sampleWorld [] with
    openFile := fun _ => .ok []
    bencodeDecode := fun _ => .ok v
    bencodeUnmarshal := fun _ => .ok parsed
    sha1Sum := fun data => ⟨copy Hash.zero.val data, by simp [copy, Hash.zero]⟩ }

/-- A metainfo with an announce URL and no info dictionary. -/
def noInfoFile : List (Bytes × BVal) :=
  [(str "announce", .str (str "http://tracker.example/announce")),
   (str "comment", .str (str "x"))]

/-- An info dictionary, keys presented as `name`, `length`, `piece length`, `pieces`. -/
def sampleInfo : List (Bytes × BVal) :=
  [(str "name", .str (str "a.bin")), (str "length", .int 12345),
   (str "piece length", .int 16384), (str "pieces", .str [])]

/-- The same dictionary, keys presented as `length`, `name`, `pieces`, `piece length`. -/
def sampleInfoReordered : List (Bytes × BVal) :=
  [(str "length", .int 12345), (str "name", .str (str "a.bin")),
   (str "pieces", .str []), (str "piece length", .int 16384)]

/-- A metainfo file with an announce URL and the info dictionary `sampleInfo`. -/
def sampleFile : List (Bytes × BVal) :=
  [(str "announce", .str (str "http://tracker.example/announce")),
   (str "info", .dict sampleInfo)]

/-- A parsed torrent announcing to an HTTP tracker. -/
def sampleHTTPTorrent : TorrentFile :=
  { sampleTorrent with Announce := str "http://tracker.example/announce" }

/-- A world whose announce URLs parse with scheme `http` and whose tracker
answers every request with an empty peer list. -/
def sampleHTTPWorld : World :=
  { sampleWorld [] with
    urlParse := fun _ => .ok { Scheme := str "http", Host := str "tracker.example" }
    httpGet := fun _ => .ok (.ok (str "d8:intervali1800e5:peers0:e")) }

/-! ## Lemmas on the percent encoding -/

set_option maxRecDepth 100000 in
theorem sprintfPct02X_eq :
    ∀ b : Byte, sprintfPct02X b = [37, udigits.getD (b.val / 16) 0, udigits.getD (b.val % 16) 0] := by
  decide

theorem upperHexVal_udigits : ∀ d : Fin 16, upperHexVal (udigits.getD d.val 0) = some d.val := by
  decide

theorem sprintfPct02X_spec (b : Byte) :
    ∃ c₁ c₂ : Byte, sprintfPct02X b = [37, c₁, c₂] ∧
      upperHexVal c₁ = some (b.val / 16) ∧ upperHexVal c₂ = some (b.val % 16) :=
  ⟨_, _, sprintfPct02X_eq b,
    upperHexVal_udigits ⟨b.val / 16, by omega⟩,
    upperHexVal_udigits ⟨b.val % 16, by omega⟩⟩

theorem sprintfPct02X_length (b : Byte) : (sprintfPct02X b).length = 3 := by
  obtain ⟨c₁, c₂, h, -⟩ := sprintfPct02X_spec b
  simp [h]

theorem foldl_append_eq_flatMap {α β : Type} (f : α → List β) (l : List α) (init : List β) :
    l.foldl (fun buf a => buf ++ f a) init = init ++ l.flatMap f := by
  induction l generalizing init with
  | nil => simp
  | cons a l ih => simp [ih, List.flatMap_cons]

theorem urlEncodeInfoHash_eq (hash : Hash) :
    urlEncodeInfoHash hash = hash.val.flatMap sprintfPct02X := by
  simp [urlEncodeInfoHash, foldl_append_eq_flatMap]

theorem flatMap_length_const {α β : Type} (f : α → List β) (k : Nat)
    (hf : ∀ a, (f a).length = k) (l : List α) : (l.flatMap f).length = k * l.length := by
  induction l with
  | nil => simp
  | cons a l ih => simp [List.flatMap_cons, hf, ih, Nat.mul_succ, Nat.add_comm]

theorem flatMap_chunk {α β : Type} (f : α → List β) (k : Nat)
    (hf : ∀ a, (f a).length = k) (l : List α) (i : Nat) (hi : i < l.length) :
    ((l.flatMap f).drop (k * i)).take k = f (l.get ⟨i, hi⟩) := by
  induction l generalizing i with
  | nil => simp at hi
  | cons a l ih =>
    cases i with
    | zero => simp [List.flatMap_cons, List.take_append_of_le_length, hf]
    | succ i =>
      have hi2 : i < l.length := by simpa using hi
      have h1 : k * (i + 1) = (f a).length + k * i := by rw [hf, Nat.mul_succ, Nat.add_comm]
      rw [List.flatMap_cons, h1, List.drop_append]
      simpa using ih i hi2

/-! ## C1 -/

/-- C1: for every 20-byte info hash, `urlEncodeInfoHash` returns 60 bytes; the
three bytes written for the `i`-th byte `b` of the hash are `%` followed by
the two upper-case hexadecimal digits of `b` (high nibble, then low nibble),
so no byte is left unescaped: `0x41` gives `%41`, and the hash
`00 01 .. 13` gives `%00%01...%13`. -/
theorem urlEncodeInfoHash_escapes_every_byte (hash : Hash) :
    (urlEncodeInfoHash hash).length = 60 ∧
    (∀ i : Fin 20, ∃ c₁ c₂ : Byte,
      ((urlEncodeInfoHash hash).drop (3 * i.val)).take 3 = [37, c₁, c₂] ∧
      upperHexVal c₁ = some ((hash.val.getD i.val 0).val / 16) ∧
      upperHexVal c₂ = some ((hash.val.getD i.val 0).val % 16)) ∧
    sprintfPct02X 0x41 = str "%41" ∧
    urlEncodeInfoHash ⟨[0, 1, 2, 3, 4, 5, 6, 7, 8, 9, 10, 11, 12, 13, 14, 15, 16, 17, 18, 19], rfl⟩
      = str "%00%01%02%03%04%05%06%07%08%09%0A%0B%0C%0D%0E%0F%10%11%12%13" := by
  refine ⟨?_, ?_, by decide, by decide⟩
  · rw [urlEncodeInfoHash_eq, flatMap_length_const _ 3 sprintfPct02X_length, hash.property]
  · intro i
    have hi : i.val < hash.val.length := by rw [hash.property]; exact i.isLt
    obtain ⟨c₁, c₂, h, h₁, h₂⟩ := sprintfPct02X_spec (hash.val.get ⟨i.val, hi⟩)
    refine ⟨c₁, c₂, ?_, ?_, ?_⟩
    · rw [urlEncodeInfoHash_eq, flatMap_chunk _ 3 sprintfPct02X_length _ _ hi, h]
    · rw [List.getD_eq_getElem _ _ hi]; exact h₁
    · rw [List.getD_eq_getElem _ _ hi]; exact h₂

/-! ## Big-endian fields -/

theorem beUint16_putUint16 (v : Nat) (h : v < 65536) : beUint16 (putUint16 v) = v := by
  simp [beUint16, putUint16, byteAt]
  omega

theorem beUint32_putUint32 (v : Nat) (h : v < 4294967296) : beUint32 (putUint32 v) = v := by
  simp [beUint32, putUint32, byteAt]
  omega

theorem beUint64_putUint64 (v : Nat) (h : v < 18446744073709551616) :
    beUint64 (putUint64 v) = v := by
  simp [beUint64, putUint64, byteAt]
  omega

theorem putUint32_length (v : Nat) : (putUint32 v).length = 4 := rfl

theorem putUint64_length (v : Nat) : (putUint64 v).length = 8 := rfl

theorem putUint16_length (v : Nat) : (putUint16 v).length = 2 := rfl

/-! ## The trace of the UDP transport -/

/-- The connect request of a call whose first random draw is `t`. -/
theorem connReq_write (t : Nat) :
    ({ ConnectionID := magicConnectionID, Action := connectAction, TransactionID := t }
        : udpConnectionReq).write
      = [0, 0, 4, 23, 39, 16, 25, 128, 0, 0, 0, 0] ++ putUint32 t := by
  have h1 : putUint64 magicConnectionID = [0, 0, 4, 23, 39, 16, 25, 128] := by decide
  have h2 : putUint32 connectAction = [0, 0, 0, 0] := by decide
  simp [udpConnectionReq.write, h1, h2]

theorem announceRound_trace (w : World) (torrent : TorrentFile) (client : Client)
    (connResp : udpConnectionResp) (sent : List Event) :
    (announceRound w torrent client connResp sent).trace
      = sent ++ [Event.writeTo (announceRequest torrent client connResp w.rand2.val).write] := by
  unfold announceRound
  simp only []
  repeat' split
  all_goals rfl

theorem requestPeersUDP_trace_head_of_listen (w : World) (torrent : TorrentFile)
    (client : Client) (u : URL) (hparse : w.urlParse torrent.Announce = .ok u)
    (hresolve : w.resolveUDPAddr u.Host = none) (hlisten : w.listenPacket = none) :
    (requestPeersUDP w torrent client).trace.head?
      = some (Event.writeTo ([0, 0, 4, 23, 39, 16, 25, 128, 0, 0, 0, 0] ++ putUint32 w.rand1.val)) := by
  unfold requestPeersUDP
  simp only [hparse, hresolve, hlisten]
  repeat' split
  all_goals simp [announceRound_trace, connReq_write]

/-! ## C7 -/

/-- C7: in every call of `requestPeersUDP` that gets as far as the socket
(the announce URL parses, the host resolves, the socket opens), the first
datagram written is the connect request, exactly 16 bytes: the magic constant
`0x41727101980` as a big-endian u64 (`00 00 04 17 27 10 19 80`), action 0 as a
big-endian u32, then the transaction ID `t` just drawn as a big-endian u32. -/
theorem connect_request_wire_format (w : World) (torrent : TorrentFile) (client : Client)
    (u : URL) (hparse : w.urlParse torrent.Announce = .ok u)
    (hresolve : w.resolveUDPAddr u.Host = none) (hlisten : w.listenPacket = none) :
    ∃ p : Bytes, (requestPeersUDP w torrent client).trace.head? = some (Event.writeTo p) ∧
      p.length = 16 ∧
      p.take 8 = [0x00, 0x00, 0x04, 0x17, 0x27, 0x10, 0x19, 0x80] ∧
      beUint64 (p.take 8) = 0x41727101980 ∧
      (p.drop 8).take 4 = [0, 0, 0, 0] ∧
      beUint32 ((p.drop 8).take 4) = 0 ∧
      p.drop 12 = putUint32 w.rand1.val ∧
      beUint32 (p.drop 12) = w.rand1.val := by
  refine ⟨_, requestPeersUDP_trace_head_of_listen w torrent client u hparse hresolve hlisten,
    ?_, ?_, ?_, ?_, ?_, ?_, ?_⟩
  · simp [putUint32_length]
  · rfl
  · show beUint64 [0, 0, 4, 23, 39, 16, 25, 128] = _
    decide
  · rfl
  · show beUint32 [0, 0, 0, 0] = _
    decide
  · rfl
  · exact beUint32_putUint32 _ w.rand1.isLt

theorem connect_request_wire_format_witness :
    ∃ p : Bytes,
      (requestPeersUDP (sampleWorld []) sampleTorrent sampleClient).trace.head?
        = some (Event.writeTo p) ∧
      p.length = 16 ∧
      p.take 8 = [0x00, 0x00, 0x04, 0x17, 0x27, 0x10, 0x19, 0x80] ∧
      beUint64 (p.take 8) = 0x41727101980 ∧
      (p.drop 8).take 4 = [0, 0, 0, 0] ∧
      beUint32 ((p.drop 8).take 4) = 0 ∧
      p.drop 12 = putUint32 (sampleWorld []).rand1.val ∧
      beUint32 (p.drop 12) = (sampleWorld []).rand1.val :=
  connect_request_wire_format (sampleWorld []) sampleTorrent sampleClient
    { Scheme := str "udp", Host := str "tracker.example:6969" } rfl rfl rfl

/-! ## Reading a datagram into a buffer -/

theorem copy_length (dst src : Bytes) : (copy dst src).length = dst.length := by
  simp [copy]

theorem copy_take (dst src : Bytes) (k : Nat) (hk : k ≤ min dst.length src.length) :
    (copy dst src).take k = src.take k := by
  have h1 : k ≤ (src.take (min dst.length src.length)).length := by
    simp only [List.length_take]; omega
  rw [copy, List.take_append_of_le_length h1, List.take_take, Nat.min_eq_left hk]

theorem slice_copy (dst src : Bytes) (lo hi : Nat) (h1 : lo ≤ hi)
    (h2 : hi ≤ min dst.length src.length) :
    slice (copy dst src) lo hi = some ((src.take hi).drop lo) := by
  have h3 : hi ≤ (copy dst src).length := by rw [copy_length]; omega
  simp [slice, h1, h3, copy_take dst src hi h2]

theorem readFull_of_le (r : Bytes) (size : Nat) (h : size ≤ r.length) :
    readFull r size = .ok (r.take size) := by
  simp [readFull, h]

theorem take_min_length (d : Bytes) (k : Nat) : d.take (min k d.length) = d.take k := by
  rcases Nat.le_total k d.length with h1 | h1
  · rw [Nat.min_eq_left h1]
  · rw [Nat.min_eq_right h1, List.take_of_length_le h1, List.take_of_length_le (le_refl _)]

/-! ## The announce round -/

theorem announceRound_outcome (w : World) (torrent : TorrentFile) (client : Client)
    (connResp : udpConnectionResp) (sent : List Event) (d : Bytes)
    (hwrite : w.writeTo 1 = none) (hread : w.readFrom 1 = .ok d) :
    (announceRound w torrent client connResp sent).outcome =
      if d.length < 8 then .error (str "udp tracker: announce response too short")
      else if beUint32 (d.take 4) = errorAction then
        .error (str "udp tracker error: " ++ (d.take 2048).drop 8)
      else .ok (d.take 2048) := by
  unfold announceRound
  have hb : (List.replicate 2048 (0 : Byte)).length = 2048 := List.length_replicate _ _
  generalize List.replicate 2048 (0 : Byte) = buf at hb ⊢
  simp only [hwrite, hread, readInto, hb]
  by_cases hshort : d.length < 8
  · have h1 : min 2048 d.length < 8 := by omega
    simp only [h1, hshort, if_true]
  · have h1 : ¬ min 2048 d.length < 8 := by omega
    have h4 : slice (copy buf d) 0 4 = some (d.take 4) := by
      rw [slice_copy _ _ 0 4 (by omega) (by omega)]; rfl
    have h5 : readUint32 (d.take 4) = .ok (beUint32 (d.take 4)) := by
      rw [readUint32, readFull_of_le _ _ (by rw [List.length_take]; omega)]
      simp only [List.take_take, Nat.min_self]
    have h6 : slice (copy buf d) 8 (min 2048 d.length) = some ((d.take 2048).drop 8) := by
      rw [slice_copy _ _ 8 _ (by omega) (by omega), take_min_length]
    have h7 : slice (copy buf d) 0 (min 2048 d.length) = some (d.take 2048) := by
      rw [slice_copy _ _ 0 _ (by omega) (by omega), take_min_length]; rfl
    simp only [h1, hshort, if_false, h4, h5, h6, h7]
    split <;> rfl

/-! ## The connect round -/

/-- The connect reply as `binary.Read` decodes it from the 16-byte buffer. -/
theorem udpConnectionResp_read_copy (buf d : Bytes) (hb : buf.length = 16)
    (hd : 16 ≤ d.length) :
    udpConnectionResp.read (copy buf d) = .ok
      { Action := beUint32 ((d.take 16).take 4),
        TransactionID := beUint32 (((d.take 16).drop 4).take 4),
        ConnectionID := beUint64 (((d.take 16).drop 8).take 8) } := by
  have h1 : 16 ≤ (copy buf d).length := by rw [copy_length]; omega
  rw [udpConnectionResp.read, readFull_of_le _ _ h1, copy_take _ _ 16 (by omega)]

theorem requestPeersUDP_connect (w : World) (torrent : TorrentFile) (client : Client)
    (u : URL) (d : Bytes) (hparse : w.urlParse torrent.Announce = .ok u)
    (hresolve : w.resolveUDPAddr u.Host = none) (hlisten : w.listenPacket = none)
    (hwrite : w.writeTo 0 = none) (hread : w.readFrom 0 = .ok d) :
    requestPeersUDP w torrent client =
      if d.length < 16 then
        ⟨[Event.writeTo ([0, 0, 4, 23, 39, 16, 25, 128, 0, 0, 0, 0] ++ putUint32 w.rand1.val)],
          .error (str "udp tracker: connection response too short")⟩
      else if beUint32 ((d.take 16).take 4) ≠ connectAction
          ∨ beUint32 (((d.take 16).drop 4).take 4) ≠ w.rand1.val then
        ⟨[Event.writeTo ([0, 0, 4, 23, 39, 16, 25, 128, 0, 0, 0, 0] ++ putUint32 w.rand1.val)],
          .error (str "udp tracker: invalid connection response")⟩
      else
        announceRound w torrent client
          { Action := beUint32 ((d.take 16).take 4),
            TransactionID := beUint32 (((d.take 16).drop 4).take 4),
            ConnectionID := beUint64 (((d.take 16).drop 8).take 8) }
          [Event.writeTo ([0, 0, 4, 23, 39, 16, 25, 128, 0, 0, 0, 0] ++ putUint32 w.rand1.val)] := by
  unfold requestPeersUDP
  have hb : (List.replicate 16 (0 : Byte)).length = 16 := List.length_replicate _ _
  generalize List.replicate 16 (0 : Byte) = buf at hb ⊢
  simp only [hparse, hresolve, hlisten, hwrite, hread, readInto, hb, connReq_write]
  by_cases hshort : d.length < 16
  · have h1 : min 16 d.length < 16 := by omega
    simp only [h1, hshort, if_true]
  · have h1 : ¬ min 16 d.length < 16 := by omega
    simp only [h1, hshort, if_false,
      udpConnectionResp_read_copy buf d hb (by omega)]

/-! ## C3 -/

/-- C3: when the connect request carrying transaction ID `t` went out and a
16-byte reply `d` came back, `requestPeersUDP` goes on to write an announce
request if and only if the reply's action (bytes 0..3, big-endian) is 0 and its
transaction_id (bytes 4..7, big-endian) is `t`; otherwise, in particular for
action 0 with another transaction_id, the call ends with the error
`udp tracker: invalid connection response` and the connect request is the
only datagram it ever wrote. -/
theorem connect_reply_accepted_iff (w : World) (torrent : TorrentFile) (client : Client)
    (u : URL) (d : Bytes) (hparse : w.urlParse torrent.Announce = .ok u)
    (hresolve : w.resolveUDPAddr u.Host = none) (hlisten : w.listenPacket = none)
    (hwrite : w.writeTo 0 = none) (hread : w.readFrom 0 = .ok d) (hlen : d.length = 16) :
    ((∃ p : Bytes, (requestPeersUDP w torrent client).trace =
        [Event.writeTo ([0, 0, 4, 23, 39, 16, 25, 128, 0, 0, 0, 0] ++ putUint32 w.rand1.val),
         Event.writeTo p])
      ↔ (beUint32 (d.take 4) = 0 ∧ beUint32 ((d.drop 4).take 4) = w.rand1.val)) ∧
    (¬ (beUint32 (d.take 4) = 0 ∧ beUint32 ((d.drop 4).take 4) = w.rand1.val) →
      requestPeersUDP w torrent client =
        ⟨[Event.writeTo ([0, 0, 4, 23, 39, 16, 25, 128, 0, 0, 0, 0] ++ putUint32 w.rand1.val)],
          .error (str "udp tracker: invalid connection response")⟩) := by
  have h16 : d.take 16 = d := List.take_of_length_le (by omega)
  have hrun := requestPeersUDP_connect w torrent client u d hparse hresolve hlisten hwrite hread
  rw [h16] at hrun
  have hns : ¬ d.length < 16 := by omega
  simp only [hns, if_false, connectAction] at hrun
  by_cases hc : beUint32 (d.take 4) = 0 ∧ beUint32 ((d.drop 4).take 4) = w.rand1.val
  · have hc2 : ¬ (beUint32 (d.take 4) ≠ 0 ∨ beUint32 ((d.drop 4).take 4) ≠ w.rand1.val) := by
      rcases hc with ⟨h1, h2⟩
      simp [h1, h2]
    rw [if_neg hc2] at hrun
    refine ⟨⟨fun _ => hc, fun _ => ?_⟩, fun h => absurd hc h⟩
    rw [hrun, announceRound_trace]
    exact ⟨_, rfl⟩
  · have hc2 : beUint32 (d.take 4) ≠ 0 ∨ beUint32 ((d.drop 4).take 4) ≠ w.rand1.val := by
      by_contra hcon
      push_neg at hcon
      exact hc hcon
    rw [if_pos hc2] at hrun
    refine ⟨⟨fun ⟨p, hp⟩ => ?_, fun h => absurd h hc⟩, fun _ => hrun⟩
    rw [hrun] at hp
    simp at hp

/-- A forged connect reply: action 0, transaction 8 instead of 7. -/
theorem connect_reply_accepted_iff_witness :
    ((∃ p : Bytes,
        (requestPeersUDP
            { sampleWorld [] with
              readFrom := fun _ => .ok [0, 0, 0, 0, 0, 0, 0, 8, 1, 2, 3, 4, 5, 6, 7, 8] }
            sampleTorrent sampleClient).trace =
        [Event.writeTo ([0, 0, 4, 23, 39, 16, 25, 128, 0, 0, 0, 0] ++ putUint32 7),
         Event.writeTo p])
      ↔ (beUint32 [0, 0, 0, 0] = 0 ∧ beUint32 [0, 0, 0, 8] = 7)) ∧
    (¬ (beUint32 [0, 0, 0, 0] = 0 ∧ beUint32 [0, 0, 0, 8] = 7) →
      requestPeersUDP
          { sampleWorld [] with
            readFrom := fun _ => .ok [0, 0, 0, 0, 0, 0, 0, 8, 1, 2, 3, 4, 5, 6, 7, 8] }
          sampleTorrent sampleClient =
        ⟨[Event.writeTo ([0, 0, 4, 23, 39, 16, 25, 128, 0, 0, 0, 0] ++ putUint32 7)],
          .error (str "udp tracker: invalid connection response")⟩) :=
  connect_reply_accepted_iff
    { sampleWorld [] with
      readFrom := fun _ => .ok [0, 0, 0, 0, 0, 0, 0, 8, 1, 2, 3, 4, 5, 6, 7, 8] }
    sampleTorrent sampleClient
    { Scheme := str "udp", Host := str "tracker.example:6969" }
    [0, 0, 0, 0, 0, 0, 0, 8, 1, 2, 3, 4, 5, 6, 7, 8] rfl rfl rfl rfl rfl rfl

/-! ## No read out of range -/

theorem announceRound_write_error (w : World) (torrent : TorrentFile) (client : Client)
    (connResp : udpConnectionResp) (sent : List Event) (e : Bytes)
    (hwrite : w.writeTo 1 = some e) :
    (announceRound w torrent client connResp sent).outcome = .error e := by
  unfold announceRound
  simp only [hwrite]

theorem announceRound_read_error (w : World) (torrent : TorrentFile) (client : Client)
    (connResp : udpConnectionResp) (sent : List Event) (e : Bytes)
    (hwrite : w.writeTo 1 = none) (hread : w.readFrom 1 = .error e) :
    (announceRound w torrent client connResp sent).outcome = .error e := by
  unfold announceRound
  simp only [hwrite, hread]

/-- The announce round ends with the bytes read or with an error. -/
theorem announceRound_outcome_cases (w : World) (torrent : TorrentFile) (client : Client)
    (connResp : udpConnectionResp) (sent : List Event) :
    (∃ e, (announceRound w torrent client connResp sent).outcome = .error e) ∨
    (∃ d, w.readFrom 1 = .ok d ∧ 8 ≤ d.length ∧
      (announceRound w torrent client connResp sent).outcome = .ok (d.take 2048)) := by
  cases hwrite : w.writeTo 1 with
  | some e => exact Or.inl ⟨e, announceRound_write_error _ _ _ _ _ e hwrite⟩
  | none =>
    cases hread : w.readFrom 1 with
    | error e => exact Or.inl ⟨e, announceRound_read_error _ _ _ _ _ e hwrite hread⟩
    | ok d =>
      rw [announceRound_outcome w torrent client connResp sent d hwrite hread]
      by_cases hshort : d.length < 8
      · exact Or.inl ⟨_, by rw [if_pos hshort]⟩
      · by_cases hact : beUint32 (d.take 4) = errorAction
        · exact Or.inl ⟨_, by rw [if_neg hshort, if_pos hact]⟩
        · exact Or.inr ⟨d, rfl, by omega, by rw [if_neg hshort, if_neg hact]⟩

/-- A call of `requestPeersUDP` ends with an error, or it went through both
rounds and returns what the second read delivered. -/
theorem requestPeersUDP_outcome_cases (w : World) (torrent : TorrentFile) (client : Client) :
    (∃ e, (requestPeersUDP w torrent client).outcome = .error e) ∨
    (∃ d₀ d, w.readFrom 0 = .ok d₀ ∧ 16 ≤ d₀.length ∧ w.readFrom 1 = .ok d ∧ 8 ≤ d.length ∧
      (requestPeersUDP w torrent client).outcome = .ok (d.take 2048)) := by
  cases hparse : w.urlParse torrent.Announce with
  | error e => exact Or.inl ⟨e, by unfold requestPeersUDP; simp only [hparse]⟩
  | ok u =>
    cases hresolve : w.resolveUDPAddr u.Host with
    | some e => exact Or.inl ⟨e, by unfold requestPeersUDP; simp only [hparse, hresolve]⟩
    | none =>
      cases hlisten : w.listenPacket with
      | some e =>
        exact Or.inl ⟨e, by unfold requestPeersUDP; simp only [hparse, hresolve, hlisten]⟩
      | none =>
        cases hwrite : w.writeTo 0 with
        | some e =>
          exact Or.inl ⟨e, by
            unfold requestPeersUDP; simp only [hparse, hresolve, hlisten, hwrite]⟩
        | none =>
          cases hread : w.readFrom 0 with
          | error e =>
            exact Or.inl ⟨e, by
              unfold requestPeersUDP; simp only [hparse, hresolve, hlisten, hwrite, hread]⟩
          | ok d₀ =>
            rw [requestPeersUDP_connect w torrent client u d₀ hparse hresolve hlisten hwrite hread]
            by_cases hshort : d₀.length < 16
            · exact Or.inl ⟨_, by rw [if_pos hshort]⟩
            · rw [if_neg hshort]
              split
              · exact Or.inl ⟨_, rfl⟩
              · rcases announceRound_outcome_cases w torrent client _ _ with ⟨e, he⟩ | ⟨d, h1, h2, h3⟩
                · exact Or.inl ⟨e, he⟩
                · exact Or.inr ⟨d₀, d, rfl, by omega, h1, h2, h3⟩

/-! ## C5 -/

/-- C5: no call of `requestPeersUDP` panics, whatever arrives on the socket:
every slice expression and field read is reached only with bounds that are
in range.  A connect reply shorter than 16 bytes and an announce reply
shorter than 8 bytes (0 bytes included) make the call end with an error; when
the call gets to read them, the errors are
`udp tracker: connection response too short` and
`udp tracker: announce response too short`.  A call that returns a body has
read a connect reply of at least 16 and an announce reply of at least 8
bytes. -/
theorem truncated_replies_rejected (w : World) (torrent : TorrentFile) (client : Client) :
    (requestPeersUDP w torrent client).outcome ≠ .panic ∧
    (∀ d, w.readFrom 0 = .ok d → d.length < 16 →
      ∃ e, (requestPeersUDP w torrent client).outcome = .error e) ∧
    (∀ d, w.readFrom 1 = .ok d → d.length < 8 →
      ∃ e, (requestPeersUDP w torrent client).outcome = .error e) ∧
    (∀ u d, w.urlParse torrent.Announce = .ok u → w.resolveUDPAddr u.Host = none →
      w.listenPacket = none → w.writeTo 0 = none → w.readFrom 0 = .ok d → d.length < 16 →
      (requestPeersUDP w torrent client).outcome
        = .error (str "udp tracker: connection response too short")) ∧
    (∀ connResp sent d, w.writeTo 1 = none → w.readFrom 1 = .ok d → d.length < 8 →
      (announceRound w torrent client connResp sent).outcome
        = .error (str "udp tracker: announce response too short")) ∧
    (∀ body, (requestPeersUDP w torrent client).outcome = .ok body →
      ∃ d₀ d, w.readFrom 0 = .ok d₀ ∧ 16 ≤ d₀.length ∧ w.readFrom 1 = .ok d ∧ 8 ≤ d.length) := by
  refine ⟨?_, ?_, ?_, ?_, ?_, ?_⟩
  · rcases requestPeersUDP_outcome_cases w torrent client with ⟨e, he⟩ | ⟨_, d, _, _, _, _, h⟩
    · rw [he]; simp
    · rw [h]; simp
  · intro d hread hshort
    rcases requestPeersUDP_outcome_cases w torrent client with he | ⟨d₀, _, h0, hlen, _, _, _⟩
    · exact he
    · rw [hread] at h0
      cases h0
      omega
  · intro d hread hshort
    rcases requestPeersUDP_outcome_cases w torrent client with he | ⟨_, d₁, _, _, h1, hlen, _⟩
    · exact he
    · rw [hread] at h1
      cases h1
      omega
  · intro u d hparse hresolve hlisten hwrite hread hshort
    rw [requestPeersUDP_connect w torrent client u d hparse hresolve hlisten hwrite hread,
      if_pos hshort]
  · intro connResp sent d hwrite hread hshort
    rw [announceRound_outcome w torrent client connResp sent d hwrite hread, if_pos hshort]
  · intro body hbody
    rcases requestPeersUDP_outcome_cases w torrent client with ⟨e, he⟩ | ⟨d₀, d, h0, hl0, h1, hl1, _⟩
    · rw [he] at hbody
      cases hbody
    · exact ⟨d₀, d, h0, hl0, h1, hl1⟩

/-- An empty announce reply after a good connect round. -/
theorem truncated_replies_rejected_witness :
    (requestPeersUDP (sampleWorld []) sampleTorrent sampleClient).outcome ≠ .panic ∧
    (∃ e, (requestPeersUDP (sampleWorld []) sampleTorrent sampleClient).outcome = .error e) ∧
    (announceRound (sampleWorld []) sampleTorrent sampleClient
        { Action := 0, TransactionID := 7, ConnectionID := 0x1122334455667788 } []).outcome
      = .error (str "udp tracker: announce response too short") :=
  ⟨(truncated_replies_rejected (sampleWorld []) sampleTorrent sampleClient).1,
    (truncated_replies_rejected (sampleWorld []) sampleTorrent sampleClient).2.2.1 [] rfl
      (by decide),
    (truncated_replies_rejected (sampleWorld []) sampleTorrent sampleClient).2.2.2.2.1
      { Action := 0, TransactionID := 7, ConnectionID := 0x1122334455667788 } [] [] rfl rfl
      (by decide)⟩

/-! ## The reply of the announce round -/

theorem requestPeersUDP_outcome_of_reads (w : World) (torrent : TorrentFile)
    (client : Client) (d : Bytes) (hreach : ReadsAnnounceReply w torrent d) :
    (requestPeersUDP w torrent client).outcome =
      if d.length < 8 then .error (str "udp tracker: announce response too short")
      else if beUint32 (d.take 4) = errorAction then
        .error (str "udp tracker error: " ++ (d.take 2048).drop 8)
      else .ok (d.take 2048) := by
  obtain ⟨⟨d₀, u, hparse, hresolve, hlisten, hw0, hr0, hlen, hact, htid⟩, hw1, hr1⟩ := hreach
  have hns : ¬ d₀.length < 16 := by omega
  have hc : ¬ (beUint32 ((d₀.take 16).take 4) ≠ connectAction
      ∨ beUint32 (((d₀.take 16).drop 4).take 4) ≠ w.rand1.val) := by
    simp [hact, htid]
  rw [requestPeersUDP_connect w torrent client u d₀ hparse hresolve hlisten hw0 hr0,
    if_neg hns, if_neg hc, announceRound_outcome w torrent client _ _ d hw1 hr1]

theorem sampleWorld_accepts (d : Bytes) :
    ∃ d₀, ConnectAccepted (sampleWorld d) sampleTorrent d₀ :=
  ⟨sampleConnectReply, { Scheme := str "udp", Host := str "tracker.example:6969" },
    rfl, rfl, rfl, rfl, rfl, by decide, by decide, rfl⟩

theorem sampleWorld_reads (d : Bytes) : ReadsAnnounceReply (sampleWorld d) sampleTorrent d :=
  ⟨sampleWorld_accepts d, rfl, rfl⟩

theorem take_ne_of_length_lt (l : Bytes) (k : Nat) (h : k < l.length) : l.take k ≠ l := by
  intro heq
  have h2 := congrArg List.length heq
  rw [List.length_take] at h2
  omega

theorem longReply_length : longReply.length = 2049 := by
  simp only [longReply, List.length_append, List.length_replicate, List.length_cons,
    List.length_nil]

theorem longErrorReply_length : longErrorReply.length = 2049 := by
  simp only [longErrorReply, List.length_append, List.length_replicate, List.length_cons,
    List.length_nil]

theorem longReply_action : beUint32 (longReply.take 4) = 1 := by
  have h : longReply.take 4 = [0, 0, 0, 1] := by
    rw [longReply, List.take_append_of_le_length (by decide)]; rfl
  rw [h]; decide

theorem longErrorReply_action : beUint32 (longErrorReply.take 4) = 3 := by
  have h : longErrorReply.take 4 = [0, 0, 0, 3] := by
    rw [longErrorReply, List.take_append_of_le_length (by decide)]; rfl
  rw [h]; decide

/-! ## C10 -/

/-- C10, as stated, fails on a datagram longer than the 2048-byte buffer: the
2049-byte reply `longReply` (action 1) is accepted, yet the call returns only
its first 2048 bytes, not the full reply. -/
theorem announce_reply_verbatim_counterexample :
    ReadsAnnounceReply (sampleWorld longReply) sampleTorrent longReply ∧
    8 ≤ longReply.length ∧ beUint32 (longReply.take 4) ≠ 3 ∧
    (requestPeersUDP (sampleWorld longReply) sampleTorrent sampleClient).outcome
      = .ok (longReply.take 2048) ∧
    (requestPeersUDP (sampleWorld longReply) sampleTorrent sampleClient).outcome
      ≠ .ok longReply := by
  have hlen := longReply_length
  have hact := longReply_action
  have hout := requestPeersUDP_outcome_of_reads (sampleWorld longReply) sampleTorrent
    sampleClient longReply (sampleWorld_reads longReply)
  rw [if_neg (by omega), if_neg (by rw [hact]; decide)] at hout
  refine ⟨sampleWorld_reads longReply, by omega, by rw [hact]; decide, hout, ?_⟩
  rw [hout]
  intro h
  exact take_ne_of_length_lt longReply 2048 (by omega) (Outcome.ok.inj h)

/-- C10, amended: for every announce reply datagram `d` of at least 8 bytes
whose action (first 4 bytes, big-endian) is not 3, whatever its action value
and transaction_id are, the call succeeds and returns the first 2048 bytes of
`d`; that is the full reply, unchanged and of the same length, when `d` has at
most 2048 bytes. -/
theorem announce_reply_returned (w : World) (torrent : TorrentFile) (client : Client)
    (d : Bytes) (hreach : ReadsAnnounceReply w torrent d) (hlen : 8 ≤ d.length)
    (hact : beUint32 (d.take 4) ≠ 3) :
    (requestPeersUDP w torrent client).outcome = .ok (d.take 2048) ∧
    (d.length ≤ 2048 → (requestPeersUDP w torrent client).outcome = .ok d) := by
  have hout := requestPeersUDP_outcome_of_reads w torrent client d hreach
  rw [if_neg (by omega), if_neg (by simpa [errorAction] using hact)] at hout
  refine ⟨hout, fun hle => ?_⟩
  rw [hout, List.take_of_length_le hle]

/-- An 8-byte reply with action 2 and a transaction ID that was never sent. -/
theorem announce_reply_returned_witness :
    (requestPeersUDP (sampleWorld [0, 0, 0, 2, 9, 9, 9, 9]) sampleTorrent sampleClient).outcome
      = .ok (List.take 2048 [0, 0, 0, 2, 9, 9, 9, 9]) ∧
    ((([0, 0, 0, 2, 9, 9, 9, 9] : Bytes)).length ≤ 2048 →
      (requestPeersUDP (sampleWorld [0, 0, 0, 2, 9, 9, 9, 9]) sampleTorrent sampleClient).outcome
        = .ok [0, 0, 0, 2, 9, 9, 9, 9]) :=
  announce_reply_returned (sampleWorld [0, 0, 0, 2, 9, 9, 9, 9]) sampleTorrent sampleClient
    [0, 0, 0, 2, 9, 9, 9, 9]
    ⟨⟨sampleConnectReply, { Scheme := str "udp", Host := str "tracker.example:6969" },
      rfl, rfl, rfl, rfl, rfl, by decide, by decide, rfl⟩, rfl, rfl⟩
    (by decide) (by decide)

/-! ## C4 -/

/-- C4, as stated, fails on the 2049-byte error reply `longErrorReply`
(action 3): the call fails, and its error message is
`udp tracker error: ` followed by bytes 8..2047 of the reply; it is neither
the reply's bytes 8..2048, nor that text after the fixed words, nor bytes
8..2047 alone. -/
theorem tracker_error_message_counterexample :
    ReadsAnnounceReply (sampleWorld longErrorReply) sampleTorrent longErrorReply ∧
    8 ≤ longErrorReply.length ∧ beUint32 (longErrorReply.take 4) = 3 ∧
    (requestPeersUDP (sampleWorld longErrorReply) sampleTorrent sampleClient).outcome
      = .error (str "udp tracker error: " ++ (longErrorReply.take 2048).drop 8) ∧
    (requestPeersUDP (sampleWorld longErrorReply) sampleTorrent sampleClient).outcome
      ≠ .error (longErrorReply.drop 8) ∧
    (requestPeersUDP (sampleWorld longErrorReply) sampleTorrent sampleClient).outcome
      ≠ .error (str "udp tracker error: " ++ longErrorReply.drop 8) ∧
    (requestPeersUDP (sampleWorld longErrorReply) sampleTorrent sampleClient).outcome
      ≠ .error ((longErrorReply.take 2048).drop 8) := by
  have hlen := longErrorReply_length
  have hact := longErrorReply_action
  have hout := requestPeersUDP_outcome_of_reads (sampleWorld longErrorReply) sampleTorrent
    sampleClient longErrorReply (sampleWorld_reads longErrorReply)
  rw [if_neg (by omega), if_pos (by rw [hact]; rfl)] at hout
  refine ⟨sampleWorld_reads longErrorReply, by omega, hact, hout, ?_, ?_, ?_⟩
  · rw [hout]
    intro h
    have h2 := congrArg List.length (Outcome.error.inj h)
    simp only [List.length_append, List.length_drop, List.length_take, hlen] at h2
    have h3 : (str "udp tracker error: ").length = 19 := by decide
    omega
  · rw [hout]
    intro h
    have h2 := congrArg List.length (Outcome.error.inj h)
    simp only [List.length_append, List.length_drop, List.length_take, hlen] at h2
    omega
  · rw [hout]
    intro h
    have h2 := congrArg List.length (Outcome.error.inj h)
    simp only [List.length_append, List.length_drop, List.length_take, hlen] at h2
    have h3 : (str "udp tracker error: ").length = 19 := by decide
    omega

/-- C4, amended: for every announce reply `d` of at least 8 bytes whose first
4 bytes decode (big-endian) to action 3, the call fails and returns no
response bytes, and the error's message is the fixed text
`udp tracker error: ` followed by bytes 8.. of the first 2048 bytes of `d`,
which is all the text after the 8-byte header when `d` has at most 2048
bytes. -/
theorem tracker_error_message (w : World) (torrent : TorrentFile) (client : Client)
    (d : Bytes) (hreach : ReadsAnnounceReply w torrent d) (hlen : 8 ≤ d.length)
    (hact : beUint32 (d.take 4) = 3) :
    (requestPeersUDP w torrent client).outcome
      = .error (str "udp tracker error: " ++ (d.take 2048).drop 8) ∧
    (d.length ≤ 2048 → (requestPeersUDP w torrent client).outcome
      = .error (str "udp tracker error: " ++ d.drop 8)) := by
  have hout := requestPeersUDP_outcome_of_reads w torrent client d hreach
  rw [if_neg (by omega), if_pos (by rw [hact]; rfl)] at hout
  refine ⟨hout, fun hle => ?_⟩
  rw [hout, List.take_of_length_le hle]

/-- The tracker text `torrent not registered` is reported as
`udp tracker error: torrent not registered`. -/
theorem tracker_error_message_witness :
    (requestPeersUDP (sampleWorld notRegisteredReply) sampleTorrent sampleClient).outcome
      = .error (str "udp tracker error: torrent not registered") :=
  ((tracker_error_message (sampleWorld notRegisteredReply) sampleTorrent sampleClient
    notRegisteredReply
    ⟨⟨sampleConnectReply, { Scheme := str "udp", Host := str "tracker.example:6969" },
      rfl, rfl, rfl, rfl, rfl, by decide, by decide, rfl⟩, rfl, rfl⟩
    (by decide) (by decide)).2 (by decide)).trans (by decide)

/-! ## The announce request -/

theorem beUint64_lt (b : Bytes) : beUint64 b < 18446744073709551616 := by
  simp only [beUint64]
  have h0 := (b.getD 0 0).isLt
  have h1 := (b.getD 1 0).isLt
  have h2 := (b.getD 2 0).isLt
  have h3 := (b.getD 3 0).isLt
  have h4 := (b.getD 4 0).isLt
  have h5 := (b.getD 5 0).isLt
  have h6 := (b.getD 6 0).isLt
  have h7 := (b.getD 7 0).isLt
  omega

theorem take_append_len {α : Type} (a b : List α) (n : Nat) (h : a.length = n) :
    (a ++ b).take n = a := by
  subst h; simp

theorem drop_append_len {α : Type} (a b : List α) (n k : Nat) (h : a.length = n) :
    (a ++ b).drop (n + k) = b.drop k := by
  subst h
  rw [List.drop_append]

/-- The serialized announce request, field after field. -/
theorem udpAnnounceReq_write_eq (r : udpAnnounceReq) :
    r.write = putUint64 r.ConnectionID ++ (putUint32 r.Action ++ (putUint32 r.TransactionID
      ++ (r.InfoHash.val ++ (r.PeerID.val ++ (putUint64 r.Downloaded ++ (putUint64 r.Left
      ++ (putUint64 r.Uploaded ++ (putUint32 r.Event ++ (putUint32 r.IPAddress
      ++ (putUint32 r.Key ++ (putUint32 (toUint32 r.NumWant) ++ putUint16 r.Port))))))))))) := by
  simp only [udpAnnounceReq.write, List.append_assoc]

theorem udpAnnounceReq_write_length (r : udpAnnounceReq) : r.write.length = 98 := by
  simp only [udpAnnounceReq_write_eq, List.length_append, putUint64_length, putUint32_length,
    putUint16_length, r.InfoHash.property, r.PeerID.property]

theorem layout_step (full a rest : Bytes) (off n : Nat) (h : full.drop off = a ++ rest)
    (ha : a.length = n) : (full.drop off).take n = a ∧ full.drop (off + n) = rest := by
  refine ⟨by rw [h]; exact take_append_len a rest n ha, ?_⟩
  rw [← List.drop_drop, h]
  simpa using drop_append_len a rest n 0 ha

theorem udpAnnounceReq_fields (r : udpAnnounceReq) :
    r.write.take 8 = putUint64 r.ConnectionID ∧
    (r.write.drop 8).take 4 = putUint32 r.Action ∧
    (r.write.drop 12).take 4 = putUint32 r.TransactionID ∧
    (r.write.drop 16).take 20 = r.InfoHash.val ∧
    (r.write.drop 36).take 20 = r.PeerID.val ∧
    (r.write.drop 56).take 8 = putUint64 r.Downloaded ∧
    (r.write.drop 64).take 8 = putUint64 r.Left ∧
    (r.write.drop 72).take 8 = putUint64 r.Uploaded ∧
    (r.write.drop 80).take 4 = putUint32 r.Event ∧
    (r.write.drop 84).take 4 = putUint32 r.IPAddress ∧
    (r.write.drop 88).take 4 = putUint32 r.Key ∧
    (r.write.drop 92).take 4 = putUint32 (toUint32 r.NumWant) ∧
    r.write.drop 96 = putUint16 r.Port := by
  have e : r.write.drop 0 = _ := udpAnnounceReq_write_eq r
  obtain ⟨f1, e⟩ := layout_step _ _ _ 0 8 e rfl
  obtain ⟨f2, e⟩ := layout_step _ _ _ _ 4 e rfl
  obtain ⟨f3, e⟩ := layout_step _ _ _ _ 4 e rfl
  obtain ⟨f4, e⟩ := layout_step _ _ _ _ 20 e r.InfoHash.property
  obtain ⟨f5, e⟩ := layout_step _ _ _ _ 20 e r.PeerID.property
  obtain ⟨f6, e⟩ := layout_step _ _ _ _ 8 e rfl
  obtain ⟨f7, e⟩ := layout_step _ _ _ _ 8 e rfl
  obtain ⟨f8, e⟩ := layout_step _ _ _ _ 8 e rfl
  obtain ⟨f9, e⟩ := layout_step _ _ _ _ 4 e rfl
  obtain ⟨f10, e⟩ := layout_step _ _ _ _ 4 e rfl
  obtain ⟨f11, e⟩ := layout_step _ _ _ _ 4 e rfl
  obtain ⟨f12, e⟩ := layout_step _ _ _ _ 4 e rfl
  exact ⟨f1, f2, f3, f4, f5, f6, f7, f8, f9, f10, f11, f12, e⟩

theorem toUint64_lt (x : Int) : toUint64 x < 18446744073709551616 := by
  unfold toUint64; omega

theorem toUint16_lt (x : Int) : toUint16 x < 65536 := by
  unfold toUint16; omega

theorem toUint64_of_nonneg (x : Int) (h0 : 0 ≤ x) (h1 : x < 9223372036854775808) :
    (toUint64 x : Int) = x := by
  unfold toUint64; omega

theorem toUint16_of_range (x : Int) (h0 : 0 ≤ x) (h1 : x < 65536) : (toUint16 x : Int) = x := by
  unfold toUint16; omega

theorem copy_zero_of_length (src : Bytes) (h : src.length = 20) :
    copy Hash.zero.val src = src := by
  have hz : Hash.zero.val.length = 20 := Hash.zero.property
  rw [copy, hz, h, Nat.min_self, List.take_of_length_le (by omega),
    List.drop_of_length_le (by omega), List.append_nil]

theorem copy_zero_eq (src : Bytes) :
    copy Hash.zero.val src = src.take 20 ++ List.replicate (20 - src.length) 0 := by
  have hz : Hash.zero.val = List.replicate 20 0 := rfl
  rw [hz, copy, List.length_replicate, take_min_length, List.drop_replicate]
  congr 2
  omega

/-- A call whose connect round succeeds writes exactly two datagrams. -/
theorem requestPeersUDP_trace_of_accepted (w : World) (torrent : TorrentFile)
    (client : Client) (d₀ : Bytes) (hacc : ConnectAccepted w torrent d₀) :
    (requestPeersUDP w torrent client).trace =
      [Event.writeTo ([0, 0, 4, 23, 39, 16, 25, 128, 0, 0, 0, 0] ++ putUint32 w.rand1.val),
       Event.writeTo (announceRequest torrent client
          { Action := beUint32 ((d₀.take 16).take 4),
            TransactionID := beUint32 (((d₀.take 16).drop 4).take 4),
            ConnectionID := beUint64 (((d₀.take 16).drop 8).take 8) } w.rand2.val).write] := by
  obtain ⟨u, hparse, hresolve, hlisten, hw0, hr0, hlen, hact, htid⟩ := hacc
  have hns : ¬ d₀.length < 16 := by omega
  have hc : ¬ (beUint32 ((d₀.take 16).take 4) ≠ connectAction
      ∨ beUint32 (((d₀.take 16).drop 4).take 4) ≠ w.rand1.val) := by
    simp [hact, htid]
  rw [requestPeersUDP_connect w torrent client u d₀ hparse hresolve hlisten hw0 hr0,
    if_neg hns, if_neg hc, announceRound_trace]
  rfl

/-! ## C6 -/

/-- C6: for every torrent, every client identity (whatever the length of its
peerID) and every connect reply `d₀` the connect round accepts, the second
datagram `requestPeersUDP` writes is the announce request, exactly 98 bytes,
all fields big-endian at fixed offsets: connection_id (offset 0, the value of
bytes 8..15 of `d₀`), action 1 (8), transaction_id, the second random draw
(12), the torrent's 20 info-hash bytes (16), 20 peer_id bytes (36; the first 20
bytes of peerID, padded with zeros at the end, so peerID itself when it has 20
bytes), downloaded 0 (56), left (64; `Info.Length` modulo 2^64, so the total
length when it is not negative), uploaded 0 (72), event 2 (80), ip 0 (84),
key 0 (88), num_want `FF FF FF FF` (92), port (96; `Port` modulo 2^16, so the
listen port when it is in 0..65535). -/
theorem announce_request_wire_format (w : World) (torrent : TorrentFile) (client : Client)
    (d₀ : Bytes) (hacc : ConnectAccepted w torrent d₀) :
    ∃ p : Bytes,
      (requestPeersUDP w torrent client).trace =
        [Event.writeTo ([0, 0, 4, 23, 39, 16, 25, 128, 0, 0, 0, 0] ++ putUint32 w.rand1.val),
         Event.writeTo p] ∧
      p.length = 98 ∧
      beUint64 (p.take 8) = beUint64 (((d₀.take 16).drop 8).take 8) ∧
      beUint32 ((p.drop 8).take 4) = 1 ∧
      beUint32 ((p.drop 12).take 4) = w.rand2.val ∧
      (p.drop 16).take 20 = torrent.InfoHash.val ∧
      (p.drop 36).take 20
        = client.PeerID.take 20 ++ List.replicate (20 - client.PeerID.length) 0 ∧
      (client.PeerID.length = 20 → (p.drop 36).take 20 = client.PeerID) ∧
      beUint64 ((p.drop 56).take 8) = 0 ∧
      (beUint64 ((p.drop 64).take 8) : Int) = torrent.Info.Length % 18446744073709551616 ∧
      (0 ≤ torrent.Info.Length → torrent.Info.Length < 9223372036854775808 →
        (beUint64 ((p.drop 64).take 8) : Int) = torrent.Info.Length) ∧
      beUint64 ((p.drop 72).take 8) = 0 ∧
      beUint32 ((p.drop 80).take 4) = 2 ∧
      beUint32 ((p.drop 84).take 4) = 0 ∧
      beUint32 ((p.drop 88).take 4) = 0 ∧
      (p.drop 92).take 4 = [0xFF, 0xFF, 0xFF, 0xFF] ∧
      (beUint16 (p.drop 96) : Int) = client.Port % 65536 ∧
      (0 ≤ client.Port → client.Port < 65536 → (beUint16 (p.drop 96) : Int) = client.Port) := by
  refine ⟨_, requestPeersUDP_trace_of_accepted w torrent client d₀ hacc, ?_⟩
  generalize hr : announceRequest torrent client
    { Action := beUint32 ((d₀.take 16).take 4),
      TransactionID := beUint32 (((d₀.take 16).drop 4).take 4),
      ConnectionID := beUint64 (((d₀.take 16).drop 8).take 8) } w.rand2.val = r
  obtain ⟨f1, f2, f3, f4, f5, f6, f7, f8, f9, f10, f11, f12, f13⟩ := udpAnnounceReq_fields r
  have g1 : r.ConnectionID = beUint64 (((d₀.take 16).drop 8).take 8) := by rw [← hr]; rfl
  have g2 : r.Action = 1 := by rw [← hr]; rfl
  have g3 : r.TransactionID = w.rand2.val := by rw [← hr]; rfl
  have g4 : r.InfoHash = torrent.InfoHash := by rw [← hr]; rfl
  have g5 : r.PeerID.val = copy Hash.zero.val client.PeerID := by rw [← hr]; rfl
  have g6 : r.Downloaded = 0 := by rw [← hr]; rfl
  have g7 : r.Left = toUint64 torrent.Info.Length := by rw [← hr]; rfl
  have g8 : r.Uploaded = 0 := by rw [← hr]; rfl
  have g9 : r.Event = 2 := by rw [← hr]; rfl
  have g10 : r.IPAddress = 0 := by rw [← hr]; rfl
  have g11 : r.Key = 0 := by rw [← hr]; rfl
  have g12 : r.NumWant = -1 := by rw [← hr]; rfl
  have g13 : r.Port = toUint16 client.Port := by rw [← hr]; rfl
  have hleft : beUint64 ((r.write.drop 64).take 8) = toUint64 torrent.Info.Length := by
    rw [f7, g7, beUint64_putUint64 _ (toUint64_lt _)]
  have hport : beUint16 (r.write.drop 96) = toUint16 client.Port := by
    rw [f13, g13, beUint16_putUint16 _ (toUint16_lt _)]
  have hpeer : (r.write.drop 36).take 20
      = client.PeerID.take 20 ++ List.replicate (20 - client.PeerID.length) 0 := by
    rw [f5, g5, copy_zero_eq]
  refine ⟨udpAnnounceReq_write_length r, ?_, ?_, ?_, ?_, hpeer, ?_, ?_, ?_, ?_, ?_, ?_, ?_, ?_,
    ?_, ?_, ?_⟩
  · rw [f1, g1, beUint64_putUint64 _ (beUint64_lt _)]
  · rw [f2, g2]; decide
  · rw [f3, g3, beUint32_putUint32 _ w.rand2.isLt]
  · rw [f4, g4]
  · intro h20
    rw [f5, g5, copy_zero_of_length _ h20]
  · rw [f6, g6]; decide
  · rw [hleft]; unfold toUint64; omega
  · intro h0 h1
    rw [hleft]; exact toUint64_of_nonneg _ h0 h1
  · rw [f8, g8]; decide
  · rw [f9, g9]; decide
  · rw [f10, g10]; decide
  · rw [f11, g11]; decide
  · rw [f12, g12]; decide
  · rw [hport]; unfold toUint16; omega
  · intro h0 h1
    rw [hport]; exact toUint16_of_range _ h0 h1

/-- The sample world accepts its connect reply and writes a 98-byte announce
request. -/
theorem announce_request_wire_format_witness :
    ConnectAccepted (sampleWorld []) sampleTorrent sampleConnectReply ∧
    ∃ p : Bytes,
      (requestPeersUDP (sampleWorld []) sampleTorrent sampleClient).trace =
        [Event.writeTo ([0, 0, 4, 23, 39, 16, 25, 128, 0, 0, 0, 0]
            ++ putUint32 (sampleWorld []).rand1.val),
         Event.writeTo p] ∧
      p.length = 98 ∧ (p.drop 36).take 20 = sampleClient.PeerID ∧
      (beUint64 ((p.drop 64).take 8) : Int) = 12345 ∧ (beUint16 (p.drop 96) : Int) = 6881 :=
  ⟨⟨{ Scheme := str "udp", Host := str "tracker.example:6969" },
      rfl, rfl, rfl, rfl, rfl, by decide, by decide, rfl⟩,
    match announce_request_wire_format (sampleWorld []) sampleTorrent sampleClient
        sampleConnectReply
        ⟨{ Scheme := str "udp", Host := str "tracker.example:6969" },
          rfl, rfl, rfl, rfl, rfl, by decide, by decide, rfl⟩ with
    | ⟨p, h1, h2, _, _, _, _, _, h8, _, _, h11, _, _, _, _, _, _, h18⟩ =>
      ⟨p, h1, h2, h8 (by decide), h11 (by decide) (by decide), h18 (by decide) (by decide)⟩⟩

/-! ## C8 -/

/-- C8: when the decoded top level is a mapping that has no `info` key, or
whose `info` value is not itself a mapping, `ParseTorrentFile` returns the
error `missing or invalid 'info' section` together with the zero
`TorrentFile`: empty announce URL, zero info fields, no raw info bytes, zero
info hash, also when `announce` was present and had been extracted. -/
theorem missing_info_section (w : World) (path file : Bytes) (result : List (Bytes × BVal))
    (hopen : w.openFile path = .ok file) (hdecode : w.bencodeDecode file = .ok (.dict result))
    (hinfo : ∀ info, result.lookup (str "info") ≠ some (.dict info)) :
    ParseTorrentFile w path
        = (TorrentFile.zero, some (str "missing or invalid 'info' section")) ∧
    (ParseTorrentFile w path).1.Announce = [] ∧
    (ParseTorrentFile w path).1.Info
        = { Name := [], PieceLength := 0, Pieces := [], Length := 0 } ∧
    (ParseTorrentFile w path).1.InfoRaw = [] ∧
    (ParseTorrentFile w path).1.InfoHash.val = List.replicate 20 0 := by
  have h : ParseTorrentFile w path
      = (TorrentFile.zero, some (str "missing or invalid 'info' section")) := by
    unfold ParseTorrentFile
    cases hl : result.lookup (str "info") with
    | none => simp only [hopen, hdecode, hl]
    | some v =>
      cases v with
      | dict info => exact absurd hl (hinfo info)
      | str s => simp only [hopen, hdecode, hl]
      | int n => simp only [hopen, hdecode, hl]
      | list xs => simp only [hopen, hdecode, hl]
  rw [h]
  exact ⟨rfl, rfl, rfl, rfl, rfl⟩

/-- A file with an announce URL and no info dictionary. -/
theorem missing_info_section_witness :
    ParseTorrentFile (sampleFileWorld (.dict noInfoFile) TorrentFile.zero.Info) (str "a.torrent")
      = (TorrentFile.zero, some (str "missing or invalid 'info' section")) :=
  (missing_info_section (sampleFileWorld (.dict noInfoFile) TorrentFile.zero.Info)
    (str "a.torrent") [] noInfoFile rfl rfl (fun _ h => nomatch h)).1

/-! ## Canonical key order -/

theorem marshalEntries_eq_map (kvs : List (Bytes × BVal)) :
    marshalEntries kvs = kvs.map (fun e => (e.1, marshal e.2)) := by
  induction kvs with
  | nil => rfl
  | cons e rest ih =>
    obtain ⟨k, v⟩ := e
    simp [marshalEntries, ih]

theorem marshalEntries_keys (kvs : List (Bytes × BVal)) :
    (marshalEntries kvs).map Prod.fst = kvs.map Prod.fst := by
  rw [marshalEntries_eq_map, List.map_map]
  rfl

theorem sorted_by_key (l : List (Bytes × Bytes)) :
    (l.insertionSort (fun a b => a.1 ≤ b.1)).Sorted (fun a b => a.1 ≤ b.1) := by
  haveI : IsTotal (Bytes × Bytes) (fun a b => a.1 ≤ b.1) := ⟨fun a b => le_total a.1 b.1⟩
  haveI : IsTrans (Bytes × Bytes) (fun a b => a.1 ≤ b.1) :=
    ⟨fun _ _ _ h1 h2 => le_trans h1 h2⟩
  exact List.sorted_insertionSort _ l

theorem strictly_sorted_by_key (l : List (Bytes × Bytes)) (hn : (l.map Prod.fst).Nodup) :
    (l.insertionSort (fun a b => a.1 ≤ b.1)).Sorted (fun a b => a.1 < b.1) := by
  have hperm := List.perm_insertionSort (fun a b : Bytes × Bytes => a.1 ≤ b.1) l
  have hn2 : ((l.insertionSort (fun a b => a.1 ≤ b.1)).map Prod.fst).Nodup :=
    (hperm.map Prod.fst).nodup_iff.mpr hn
  have hne : (l.insertionSort (fun a b => a.1 ≤ b.1)).Pairwise (fun a b => a.1 ≠ b.1) :=
    List.pairwise_map.mp hn2
  exact ((sorted_by_key l).and hne).imp (fun h => lt_of_le_of_ne h.1 h.2)

/-- Sorting by key forgets the order in which distinct keys are presented. -/
theorem insertionSort_eq_of_perm (l₁ l₂ : List (Bytes × Bytes)) (hp : l₁.Perm l₂)
    (hn : (l₁.map Prod.fst).Nodup) :
    l₁.insertionSort (fun a b => a.1 ≤ b.1) = l₂.insertionSort (fun a b => a.1 ≤ b.1) := by
  haveI : IsAntisymm (Bytes × Bytes) (fun a b => a.1 < b.1) :=
    ⟨fun _ _ h1 h2 => absurd h1 (lt_asymm h2)⟩
  have hn2 : (l₂.map Prod.fst).Nodup := (hp.map Prod.fst).nodup_iff.mp hn
  have h1 := List.perm_insertionSort (fun a b : Bytes × Bytes => a.1 ≤ b.1) l₁
  have h2 := List.perm_insertionSort (fun a b : Bytes × Bytes => a.1 ≤ b.1) l₂
  exact List.eq_of_perm_of_sorted ((h1.trans hp).trans h2.symm)
    (strictly_sorted_by_key l₁ hn) (strictly_sorted_by_key l₂ hn2)

theorem EncodeRawInfo_perm (info₁ info₂ : List (Bytes × BVal)) (hp : info₁.Perm info₂)
    (hn : (info₁.map Prod.fst).Nodup) : EncodeRawInfo info₁ = EncodeRawInfo info₂ := by
  have hp2 : (marshalEntries info₁).Perm (marshalEntries info₂) := by
    rw [marshalEntries_eq_map, marshalEntries_eq_map]
    exact hp.map _
  have hn2 : ((marshalEntries info₁).map Prod.fst).Nodup := by
    rw [marshalEntries_keys]; exact hn
  simp only [EncodeRawInfo, marshal, writeSVList, insertionSort_eq_of_perm _ _ hp2 hn2]

/-! ## C9 -/

/-- C9: when `ParseTorrentFile` succeeds on a file whose `info` value is the
mapping `info₁`, the hash it stores is `ComputeInfoHash(EncodeRawInfo(info₁))`
and the raw bytes it stores are `EncodeRawInfo(info₁)`.  `EncodeRawInfo`
writes the entries between `d` and `e` with their keys in strictly increasing
lexicographic order, so for any other presentation `info₂` of the same
key/value pairs (a permutation, keys distinct) it yields the same bytes and
hence the same info hash. -/
theorem info_hash_canonical (w : World) (path file : Bytes) (result : List (Bytes × BVal))
    (info₁ info₂ : List (Bytes × BVal)) (parsed : Info)
    (hopen : w.openFile path = .ok file) (hdecode : w.bencodeDecode file = .ok (.dict result))
    (hinfo : result.lookup (str "info") = some (.dict info₁))
    (hunmarshal : w.bencodeUnmarshal (EncodeRawInfo info₁).1 = .ok parsed)
    (hperm : info₁.Perm info₂) (hnodup : (info₁.map Prod.fst).Nodup) :
    (ParseTorrentFile w path).2 = none ∧
    (ParseTorrentFile w path).1.InfoHash = ComputeInfoHash w (EncodeRawInfo info₁).1 ∧
    (ParseTorrentFile w path).1.InfoRaw = (EncodeRawInfo info₁).1 ∧
    (∃ es : List (Bytes × Bytes),
      es.Perm (info₁.map (fun e => (e.1, marshal e.2))) ∧
      es.Sorted (fun a b => a.1 < b.1) ∧
      (EncodeRawInfo info₁).1
        = [100] ++ es.flatMap (fun e => itoa e.1.length ++ [58] ++ e.1 ++ e.2) ++ [101]) ∧
    EncodeRawInfo info₁ = EncodeRawInfo info₂ ∧
    ComputeInfoHash w (EncodeRawInfo info₁).1 = ComputeInfoHash w (EncodeRawInfo info₂).1 ∧
    (ParseTorrentFile w path).1.InfoHash = ComputeInfoHash w (EncodeRawInfo info₂).1 := by
  have hraw : EncodeRawInfo info₁ = (marshal (.dict info₁), none) := rfl
  have hparse : ParseTorrentFile w path =
      ({ Announce :=
          (match result.lookup (str "announce") with
            | some (.str announce) => { TorrentFile.zero with Announce := announce }
            | _ => TorrentFile.zero).Announce,
         Info := parsed, InfoRaw := (EncodeRawInfo info₁).1,
         InfoHash := ComputeInfoHash w (EncodeRawInfo info₁).1 }, none) := by
    rw [hraw] at hunmarshal
    unfold ParseTorrentFile
    simp only [hopen, hdecode, hinfo, hraw, hunmarshal]
  have heq := EncodeRawInfo_perm info₁ info₂ hperm hnodup
  refine ⟨by rw [hparse], by rw [hparse], by rw [hparse], ?_, heq, by rw [heq], ?_⟩
  · refine ⟨(marshalEntries info₁).insertionSort (fun a b => a.1 ≤ b.1), ?_, ?_, ?_⟩
    · rw [← marshalEntries_eq_map]
      exact List.perm_insertionSort _ _
    · exact strictly_sorted_by_key _ (by rw [marshalEntries_keys]; exact hnodup)
    · rfl
  · rw [hparse, heq]

/-- The sample file parses, and its hash is the one of the reordered dictionary. -/
theorem info_hash_canonical_witness :
    (ParseTorrentFile
        (sampleFileWorld (.dict sampleFile)
          { Name := str "a.bin", PieceLength := 16384, Pieces := [], Length := 12345 })
        (str "a.torrent")).2 = none ∧
    EncodeRawInfo sampleInfo = EncodeRawInfo sampleInfoReordered ∧
    (EncodeRawInfo sampleInfoReordered).1
      = str "d6:lengthi12345e4:name5:a.bin12:piece lengthi16384e6:pieces0:e" :=
  have h := info_hash_canonical
    (sampleFileWorld (.dict sampleFile)
      { Name := str "a.bin", PieceLength := 16384, Pieces := [], Length := 12345 })
    (str "a.torrent") [] sampleFile sampleInfo sampleInfoReordered
    { Name := str "a.bin", PieceLength := 16384, Pieces := [], Length := 12345 }
    rfl rfl rfl rfl
    (by
      unfold sampleInfo sampleInfoReordered
      exact (List.Perm.swap _ _ _).trans
        (List.Perm.cons _ (List.Perm.cons _ (List.Perm.swap _ _ _))))
    (by decide)
  ⟨h.1, h.2.2.2.2.1, by decide⟩

/-! ## The query string -/

theorem Values_set_params (a b c d e f g h : Bytes) :
    Values.set (Values.set (Values.set (Values.set (Values.set (Values.set (Values.set
      (Values.set [] (str "info_hash") a) (str "peer_id") b) (str "port") c)
      (str "uploaded") d) (str "downloaded") e) (str "left") f) (str "compact") g)
      (str "event") h
    = [(str "info_hash", [a]), (str "peer_id", [b]), (str "port", [c]), (str "uploaded", [d]),
       (str "downloaded", [e]), (str "left", [f]), (str "compact", [g]), (str "event", [h])] := by
  rfl

theorem encodeKey_single (v : Values) (buf k x : Bytes) (hl : v.lookup k = some [x]) :
    v.encodeKey buf k
      = (if 0 < buf.length then buf ++ [38] else buf) ++ QueryEscape k ++ [61] ++ QueryEscape x := by
  simp [Values.encodeKey, hl]

theorem foldl_encodeKey_cons (v : Values) (ps : List (Bytes × Bytes)) (buf : Bytes)
    (hb : buf ≠ []) (hl : ∀ p ∈ ps, v.lookup p.1 = some [p.2]) :
    (ps.map Prod.fst).foldl v.encodeKey buf
      = buf ++ ps.flatMap (fun p => [38] ++ QueryEscape p.1 ++ [61] ++ QueryEscape p.2) := by
  induction ps generalizing buf with
  | nil => simp
  | cons p ps ih =>
    have hpos : 0 < buf.length := List.length_pos.mpr hb
    have h1 : v.encodeKey buf p.1 = buf ++ [38] ++ QueryEscape p.1 ++ [61] ++ QueryEscape p.2 := by
      rw [encodeKey_single v buf p.1 p.2 (hl p (List.mem_cons_self _ _)), if_pos hpos]
    rw [List.map_cons, List.foldl_cons, h1,
      ih _ (by simp) (fun q hq => hl q (List.mem_cons_of_mem _ hq)), List.flatMap_cons]
    simp only [List.append_assoc]

theorem foldl_encodeKey_nil (v : Values) (p : Bytes × Bytes) (ps : List (Bytes × Bytes))
    (hl : ∀ q ∈ p :: ps, v.lookup q.1 = some [q.2]) :
    ((p :: ps).map Prod.fst).foldl v.encodeKey []
      = QueryEscape p.1 ++ [61] ++ QueryEscape p.2
        ++ ps.flatMap (fun p => [38] ++ QueryEscape p.1 ++ [61] ++ QueryEscape p.2) := by
  have h1 : v.encodeKey [] p.1 = QueryEscape p.1 ++ [61] ++ QueryEscape p.2 := by
    rw [encodeKey_single v [] p.1 p.2 (hl p (List.mem_cons_self _ _))]
    simp
  rw [List.map_cons, List.foldl_cons, h1,
    foldl_encodeKey_cons v ps _ (by simp) (fun q hq => hl q (List.mem_cons_of_mem _ hq))]

theorem Values_encode_params (a b c d e f g h : Bytes) :
    Values.encode [(str "info_hash", [a]), (str "peer_id", [b]), (str "port", [c]), (str "uploaded", [d]),
       (str "downloaded", [e]), (str "left", [f]), (str "compact", [g]), (str "event", [h])]
    = str "compact=" ++ QueryEscape g ++ str "&downloaded=" ++ QueryEscape e
      ++ str "&event=" ++ QueryEscape h ++ str "&info_hash=" ++ QueryEscape a
      ++ str "&left=" ++ QueryEscape f ++ str "&peer_id=" ++ QueryEscape b
      ++ str "&port=" ++ QueryEscape c ++ str "&uploaded=" ++ QueryEscape d := by
  have hk : (List.map Prod.fst [(str "info_hash", [a]), (str "peer_id", [b]), (str "port", [c]), (str "uploaded", [d]),
       (str "downloaded", [e]), (str "left", [f]), (str "compact", [g]), (str "event", [h])]).insertionSort (fun a b => a ≤ b)
     = List.map Prod.fst [(str "compact", g), (str "downloaded", e), (str "event", h), (str "info_hash", a), (str "left", f), (str "peer_id", b), (str "port", c), (str "uploaded", d)] := by
    simp only [List.map]
    decide
  unfold Values.encode
  simp only [hk]
  rw [foldl_encodeKey_nil]
  · simp only [List.flatMap_cons, List.flatMap_nil, List.append_assoc, List.append_nil]
    rfl
  · intro q hq
    simp only [List.mem_cons, List.mem_singleton, List.not_mem_nil, or_false] at hq
    rcases hq with rfl | rfl | rfl | rfl | rfl | rfl | rfl | rfl <;> rfl

set_option maxRecDepth 100000 in
theorem unreserved_not_escaped :
    ∀ c : Byte, (c.val = 45 ∨ (48 ≤ c.val ∧ c.val ≤ 57)) → c.val ≠ 32 ∧ shouldEscape c = false := by
  decide

theorem QueryEscape_of_unreserved (s : Bytes)
    (h : ∀ c ∈ s, c.val ≠ 32 ∧ shouldEscape c = false) : QueryEscape s = s := by
  induction s with
  | nil => rfl
  | cons c s ih =>
    have hc := h c (List.mem_cons_self _ _)
    have hs := ih (fun x hx => h x (List.mem_cons_of_mem _ hx))
    unfold QueryEscape at hs ⊢
    rw [List.flatMap_cons, hs]
    simp [hc.1, hc.2]

theorem formatDecimalLoop_digits (fuel u : Nat) (acc : Bytes)
    (hacc : ∀ c ∈ acc, c.val = 45 ∨ (48 ≤ c.val ∧ c.val ≤ 57)) :
    ∀ c ∈ formatDecimalLoop fuel u acc, c.val = 45 ∨ (48 ≤ c.val ∧ c.val ≤ 57) := by
  induction fuel generalizing u acc with
  | zero =>
    intro c hc
    simp only [formatDecimalLoop, List.mem_cons] at hc
    rcases hc with rfl | hc
    · right; refine ⟨?_, ?_⟩ <;> (show _ ≤ _; simp only []; omega)
    · exact hacc c hc
  | succ fuel ih =>
    intro c hc
    unfold formatDecimalLoop at hc
    split at hc
    · refine ih _ _ ?_ c hc
      intro x hx
      simp only [List.mem_cons] at hx
      rcases hx with rfl | hx
      · right; refine ⟨?_, ?_⟩ <;> (show _ ≤ _; simp only []; omega)
      · exact hacc x hx
    · simp only [List.mem_cons] at hc
      rcases hc with rfl | hc
      · right; refine ⟨?_, ?_⟩ <;> (show _ ≤ _; simp only []; omega)
      · exact hacc c hc

theorem itoa_unreserved (i : Int) : ∀ c ∈ itoa i, c.val = 45 ∨ (48 ≤ c.val ∧ c.val ≤ 57) := by
  intro c hc
  unfold itoa at hc
  split at hc
  · simp only [List.mem_cons] at hc
    rcases hc with rfl | hc
    · left; rfl
    · exact formatDecimalLoop_digits _ _ [] (by simp) c hc
  · exact formatDecimalLoop_digits _ _ [] (by simp) c hc

theorem QueryEscape_itoa (i : Int) : QueryEscape (itoa i) = itoa i :=
  QueryEscape_of_unreserved _ (fun c hc => unreserved_not_escaped c (itoa_unreserved i c hc))

/-- The URL `RequestPeers` builds, spelled out. -/
theorem trackerURL_eq (torrent : TorrentFile) (client : Client) :
    trackerURL torrent client =
      torrent.Announce ++ str "?compact=1&downloaded=0&event=started&info_hash="
        ++ QueryEscape (urlEncodeInfoHash torrent.InfoHash)
        ++ str "&left=" ++ itoa torrent.Info.Length
        ++ str "&peer_id=" ++ QueryEscape client.PeerID
        ++ str "&port=" ++ itoa client.Port ++ str "&uploaded=0" := by
  have h0 : QueryEscape (str "0") = str "0" := by decide
  have h1 : QueryEscape (str "1") = str "1" := by decide
  have h2 : QueryEscape (str "started") = str "started" := by decide
  unfold trackerURL
  simp only [Values_set_params, Values_encode_params, QueryEscape_itoa, h0, h1, h2,
    List.append_assoc]
  rfl

theorem RequestPeers_http (w : World) (torrent : TorrentFile) (client : Client) (u : URL)
    (hparse : w.urlParse torrent.Announce = .ok u) (hscheme : u.Scheme ≠ str "udp") :
    (RequestPeers w torrent client).trace = [Event.httpGet (trackerURL torrent client)] := by
  unfold RequestPeers
  simp only [hparse, if_neg hscheme]
  repeat' split
  all_goals rfl

set_option maxRecDepth 100000 in
theorem sample_trackerURL :
    trackerURL sampleHTTPTorrent sampleClient =
      str ("http://tracker.example/announce?compact=1&downloaded=0&event=started"
        ++ "&info_hash=%2500%2501%2502%2503%2504%2505%2506%2507%2508%2509%250A%250B%250C%250D"
        ++ "%250E%250F%2510%2511%2512%2513&left=12345&peer_id=-GC0001-abcdefghijkl&port=6881"
        ++ "&uploaded=0") := by
  rw [trackerURL_eq]
  decide

/-! ## The info hash inside the query string -/

set_option maxRecDepth 100000 in
theorem QueryEscape_sprintfPct02X :
    ∀ b : Byte, QueryEscape (sprintfPct02X b)
      = [37, 50, 53, udigits.getD (b.val / 16) 0, udigits.getD (b.val % 16) 0] := by
  decide

theorem QueryEscape_sprintfPct02X_length (b : Byte) :
    (QueryEscape (sprintfPct02X b)).length = 5 := by
  rw [QueryEscape_sprintfPct02X]; rfl

/-- Query-escaping the percent-encoded hash escapes each of its groups. -/
theorem QueryEscape_urlEncodeInfoHash (hash : Hash) :
    QueryEscape (urlEncodeInfoHash hash)
      = hash.val.flatMap (fun b => QueryEscape (sprintfPct02X b)) := by
  rw [urlEncodeInfoHash_eq]
  unfold QueryEscape
  rw [List.flatMap_assoc]

/-- A URL whose query starts with `compact` is not one whose query starts
with `info_hash`. -/
theorem query_order_ne (announce r₁ r₂ : Bytes) :
    announce ++ str "?compact=1&downloaded=0&event=started&info_hash=" ++ r₁
      ≠ announce ++ str "?info_hash=" ++ r₂ := by
  intro h
  rw [List.append_assoc, List.append_assoc] at h
  have h2 := List.append_cancel_left h
  have h3 : (63 : Byte) :: 99 :: (str "ompact=1&downloaded=0&event=started&info_hash=" ++ r₁)
      = 63 :: 105 :: (str "nfo_hash=" ++ r₂) := h2
  have h4 := (List.cons.inj (List.cons.inj h3).2).1
  exact absurd h4 (by decide)

/-! ## C2 -/

/-- C2: the code does not do what the claim says.  For every metainfo whose
announce URL has a scheme other than udp and every client identity, the one
URL `RequestPeers` requests is
`<announce-url>?compact=1&downloaded=0&event=started&info_hash=<V>&left=<totalLength>&peer_id=<P>&port=<listenPort>&uploaded=0`
where `<V>` is the `%XX` string of `urlEncodeInfoHash` query-escaped once
more by `params.Encode()`: 100 bytes, the group of the `i`-th hash byte `b`
being `%25` followed by the two upper-case hexadecimal digits of `b`.  So the
info_hash value in the URL is never the `%XX` string itself, and the URL is
never the one of the claim (whose query starts with `info_hash` and ends with
`event=started`). -/
theorem tracker_url_escapes_info_hash_twice (w : World) (torrent : TorrentFile)
    (client : Client) (u : URL) (hparse : w.urlParse torrent.Announce = .ok u)
    (hscheme : u.Scheme ≠ str "udp") :
    (RequestPeers w torrent client).trace =
      [Event.httpGet (torrent.Announce
        ++ str "?compact=1&downloaded=0&event=started&info_hash="
        ++ QueryEscape (urlEncodeInfoHash torrent.InfoHash)
        ++ str "&left=" ++ itoa torrent.Info.Length
        ++ str "&peer_id=" ++ QueryEscape client.PeerID
        ++ str "&port=" ++ itoa client.Port ++ str "&uploaded=0")] ∧
    (QueryEscape (urlEncodeInfoHash torrent.InfoHash)).length = 100 ∧
    (∀ i : Fin 20, ∃ c₁ c₂ : Byte,
      ((QueryEscape (urlEncodeInfoHash torrent.InfoHash)).drop (5 * i.val)).take 5
        = [37, 50, 53, c₁, c₂] ∧
      upperHexVal c₁ = some ((torrent.InfoHash.val.getD i.val 0).val / 16) ∧
      upperHexVal c₂ = some ((torrent.InfoHash.val.getD i.val 0).val % 16)) ∧
    QueryEscape (urlEncodeInfoHash torrent.InfoHash) ≠ urlEncodeInfoHash torrent.InfoHash ∧
    (RequestPeers w torrent client).trace ≠
      [Event.httpGet (torrent.Announce ++ str "?info_hash="
        ++ urlEncodeInfoHash torrent.InfoHash
        ++ str "&peer_id=" ++ client.PeerID ++ str "&port=" ++ itoa client.Port
        ++ str "&uploaded=0&downloaded=0&left=" ++ itoa torrent.Info.Length
        ++ str "&compact=1&event=started")] := by
  have htrace := RequestPeers_http w torrent client u hparse hscheme
  rw [trackerURL_eq] at htrace
  have hlen : (QueryEscape (urlEncodeInfoHash torrent.InfoHash)).length = 100 := by
    rw [QueryEscape_urlEncodeInfoHash,
      flatMap_length_const _ 5 QueryEscape_sprintfPct02X_length, torrent.InfoHash.property]
  refine ⟨htrace, hlen, ?_, ?_, ?_⟩
  · intro i
    have hi : i.val < torrent.InfoHash.val.length := by
      rw [torrent.InfoHash.property]; exact i.isLt
    refine ⟨udigits.getD ((torrent.InfoHash.val.get ⟨i.val, hi⟩).val / 16) 0,
      udigits.getD ((torrent.InfoHash.val.get ⟨i.val, hi⟩).val % 16) 0, ?_, ?_, ?_⟩
    · rw [QueryEscape_urlEncodeInfoHash,
        flatMap_chunk _ 5 QueryEscape_sprintfPct02X_length _ _ hi, QueryEscape_sprintfPct02X]
    · rw [List.getD_eq_getElem _ _ hi]
      exact upperHexVal_udigits ⟨(torrent.InfoHash.val.get ⟨i.val, hi⟩).val / 16, by omega⟩
    · rw [List.getD_eq_getElem _ _ hi]
      exact upperHexVal_udigits ⟨(torrent.InfoHash.val.get ⟨i.val, hi⟩).val % 16, by omega⟩
  · intro heq
    have h60 := (urlEncodeInfoHash_eq torrent.InfoHash ▸
      flatMap_length_const sprintfPct02X 3 sprintfPct02X_length torrent.InfoHash.val :
        (urlEncodeInfoHash torrent.InfoHash).length = 3 * torrent.InfoHash.val.length)
    rw [torrent.InfoHash.property] at h60
    rw [heq] at hlen
    omega
  · rw [htrace]
    intro heq
    have h := Event.httpGet.inj (List.cons.inj heq).1
    simp only [List.append_assoc] at h
    exact query_order_ne torrent.Announce _ _ (by simpa only [List.append_assoc] using h)

/-- The sample torrent on an HTTP tracker: info_hash is sent as
`%2500%2501...%2513`. -/
theorem tracker_url_escapes_info_hash_twice_witness :
    (RequestPeers sampleHTTPWorld sampleHTTPTorrent sampleClient).trace =
      [Event.httpGet (str ("http://tracker.example/announce?compact=1&downloaded=0&event=started"
        ++ "&info_hash=%2500%2501%2502%2503%2504%2505%2506%2507%2508%2509%250A%250B%250C%250D"
        ++ "%250E%250F%2510%2511%2512%2513&left=12345&peer_id=-GC0001-abcdefghijkl&port=6881"
        ++ "&uploaded=0"))] ∧
    (RequestPeers sampleHTTPWorld sampleHTTPTorrent sampleClient).trace ≠
      [Event.httpGet (sampleHTTPTorrent.Announce ++ str "?info_hash="
        ++ urlEncodeInfoHash sampleHTTPTorrent.InfoHash
        ++ str "&peer_id=" ++ sampleClient.PeerID ++ str "&port=" ++ itoa sampleClient.Port
        ++ str "&uploaded=0&downloaded=0&left=" ++ itoa sampleHTTPTorrent.Info.Length
        ++ str "&compact=1&event=started")] :=
  have h := tracker_url_escapes_info_hash_twice sampleHTTPWorld sampleHTTPTorrent sampleClient
    { Scheme := str "http", Host := str "tracker.example" } rfl (by decide)
  ⟨h.1.trans (by rw [← trackerURL_eq, sample_trackerURL]), h.2.2.2.2⟩

end GoTorrent
